import Mathlib

/-!
Verification of the gtd_neto storage/synchronization layer and import
normalizer against the repository's specification.

The JavaScript sources are shallowly embedded: pure functions become Lean
functions, thrown `Error(msg)` values become `Except String`, JavaScript
values crossing untrusted boundaries become an explicit `Json` type, and
effectful store operations become explicit state passing over a list of
rows (remote backend) or a trace of file-system operations (local backend).
JavaScript numbers are modelled as integers (`Int`); none of the verified
properties depend on fractional values.  String length is modelled with
codepoint counts; the verified properties do not depend on surrogate
pairs.  The platform services the code calls out to (the HTML sanitizer
`sanitizeInput` and the `new Date(s)` parser) are parameters of the
embedding, exactly as the sanitizer is a parameter of
`validateAndNormalizeImportPayload` in the source.

The current revision of `lib/store.js` is not part of the source snapshot
(only a superseded revision, its unit test
`test/store-supabase-upsert.test.js`, its callers in `server.js` and
`src/helpers/data-access.js`, and the repository performance notes are).
Definitions for that file are therefore modelled from the spec, each
marked `Modelled from the spec:` in its doc comment, and checked against
the behaviors pinned by the unit test and the callers that are present.
-/

namespace GtdNeto

/-- A parsed JSON value, the shape of data reaching the import validator
and the local database file.  Numbers are modelled as integers. -/
inductive Json where
  | jnull : Json
  | jbool : Bool → Json
  | jnum : Int → Json
  | jstr : String → Json
  | jarr : List Json → Json
  | jobj : List (String × Json) → Json
deriving Repr

/-! ### Conflict-target fallback (claim C1)

`upsertWithConflictFallbackForClient` is exercised by
`test/store-supabase-upsert.test.js`: the mock client answers the n-th
upsert attempt with the n-th entry of a result list (missing entries mean
success), and the test observes the list of `onConflict` targets used.
The model mirrors that interface: a client is the list of per-attempt
outcomes, and the function returns the recorded calls (conflict target
paired with the rows passed) together with the overall outcome. -/

/-- A Supabase/PostgREST error object: `code` (e.g. `42P10`, `42501`)
and a message. -/
structure SbError where
  code : String
  message : String
deriving DecidableEq, Repr

/-- Outcome the backend reports for the n-th upsert attempt (`none` =
success), as in the unit test's mock client. -/
def clientRespAt (results : List (Option SbError)) (n : Nat) : Option SbError :=
  results.getD n none

/-- Postgres error code for "no unique or exclusion constraint matching
the ON CONFLICT specification". -/
def conflictTargetMismatchCode : String := "42P10"

/-- Modelled from the spec: `upsertWithConflictFallbackForClient` of
`lib/store.js` (absent from the snapshot; pinned by
`test/store-supabase-upsert.test.js`).  It attempts the upsert with the
composite `id,owner` conflict target; if and only if that attempt fails
with code 42P10 it retries the same rows once with the single-column `id`
target; any other error propagates immediately, and when both attempts
fail the second attempt's error is surfaced.  Returns the recorded
`(onConflict, rows)` calls and the outcome. -/
def upsertWithConflictFallbackForClient {α : Type} (results : List (Option SbError))
    (rows : α) : List (String × α) × Except SbError Unit :=
  match clientRespAt results 0 with
  | none => ([("id,owner", rows)], Except.ok ())
  | some e =>
    if e.code = conflictTargetMismatchCode then
      match clientRespAt results 1 with
      | none => ([("id,owner", rows), ("id", rows)], Except.ok ())
      | some e2 => ([("id,owner", rows), ("id", rows)], Except.error e2)
    else
      ([("id,owner", rows)], Except.error e)

end GtdNeto

namespace GtdNeto

/-- C1: every remote-backend upsert first attempts the composite
`(id, owner)` conflict target with the given rows; a second attempt —
with the exact same rows and the single-column `id` target — happens if
and only if the first attempt fails with the specific code 42P10; any
other first-attempt error is propagated after that single attempt; and
when both attempts fail, the surfaced error is the second (single-column)
attempt's. -/
theorem upsert_conflict_fallback_contract {α : Type} (results : List (Option SbError))
    (rows : α) :
    (upsertWithConflictFallbackForClient results rows).1.head? = some ("id,owner", rows) ∧
    (∀ c ∈ (upsertWithConflictFallbackForClient results rows).1, c.2 = rows) ∧
    ((upsertWithConflictFallbackForClient results rows).1.length = 2 ↔
      ∃ e, clientRespAt results 0 = some e ∧ e.code = conflictTargetMismatchCode) ∧
    (∀ e, clientRespAt results 0 = some e → e.code ≠ conflictTargetMismatchCode →
      (upsertWithConflictFallbackForClient results rows).1 = [("id,owner", rows)] ∧
      (upsertWithConflictFallbackForClient results rows).2 = Except.error e) ∧
    (∀ e e2, clientRespAt results 0 = some e → e.code = conflictTargetMismatchCode →
      clientRespAt results 1 = some e2 →
      (upsertWithConflictFallbackForClient results rows).1 =
        [("id,owner", rows), ("id", rows)] ∧
      (upsertWithConflictFallbackForClient results rows).2 = Except.error e2) := by
  unfold upsertWithConflictFallbackForClient
  cases h0 : clientRespAt results 0 with
  | none =>
    refine ⟨rfl, ?_, by simp, ?_, ?_⟩
    · intro c hc
      rw [List.mem_singleton] at hc
      rw [hc]
    · intro e he
      simp at he
    · intro e e2 he he2
      simp at he
  | some e =>
    dsimp only
    by_cases hc : e.code = conflictTargetMismatchCode
    · rw [if_pos hc]
      cases h1 : clientRespAt results 1 with
      | none =>
        dsimp only
        refine ⟨rfl, ?_, ⟨fun _ => ⟨e, rfl, hc⟩, fun _ => rfl⟩, ?_, ?_⟩
        · intro c hcm
          simp only [List.mem_cons, List.not_mem_nil, or_false] at hcm
          rcases hcm with h | h <;> rw [h]
        · intro e' he' hne
          rw [Option.some_inj] at he'
          subst he'
          exact absurd hc hne
        · intro e' e2 he' hcode h2
          simp at h2
      | some e2 =>
        dsimp only
        refine ⟨rfl, ?_, ⟨fun _ => ⟨e, rfl, hc⟩, fun _ => rfl⟩, ?_, ?_⟩
        · intro c hcm
          simp only [List.mem_cons, List.not_mem_nil, or_false] at hcm
          rcases hcm with h | h <;> rw [h]
        · intro e' he' hne
          rw [Option.some_inj] at he'
          subst he'
          exact absurd hc hne
        · intro e' e2' he' hcode h2
          rw [Option.some_inj] at h2
          subst h2
          exact ⟨rfl, rfl⟩
    · rw [if_neg hc]
      refine ⟨rfl, ?_, ?_, ?_, ?_⟩
      · intro c hcm
        rw [List.mem_singleton] at hcm
        rw [hcm]
      · constructor
        · intro h
          simp at h
        · rintro ⟨e', he', hcode⟩
          rw [Option.some_inj] at he'
          subst he'
          exact absurd hcode hc
      · intro e' he' hne
        rw [Option.some_inj] at he'
        subst he'
        exact ⟨rfl, rfl⟩
      · intro e' e2 he' hcode
        rw [Option.some_inj] at he'
        subst he'
        exact absurd hcode hc

/-- Concrete instance of the C1 contract: a first attempt failing with
the unrelated code 42501 (permission denied) is propagated after exactly
one composite-target attempt, with no fallback. -/
theorem upsert_conflict_fallback_contract_witness :
    clientRespAt [some ⟨"42501", "permission denied"⟩] 0 =
      some ⟨"42501", "permission denied"⟩ ∧
    SbError.code ⟨"42501", "permission denied"⟩ ≠ conflictTargetMismatchCode ∧
    (upsertWithConflictFallbackForClient [some ⟨"42501", "permission denied"⟩] (37 : Nat)).1 =
      [("id,owner", 37)] ∧
    (upsertWithConflictFallbackForClient [some ⟨"42501", "permission denied"⟩] (37 : Nat)).2 =
      Except.error ⟨"42501", "permission denied"⟩ := by
  refine ⟨by decide, by decide, ?_⟩
  exact (upsert_conflict_fallback_contract [some ⟨"42501", "permission denied"⟩]
    (37 : Nat)).2.2.2.1 ⟨"42501", "permission denied"⟩ (by decide) (by decide)

/-! ### `hacer` enrichment (claim C9)

`evaluateActionability` and `withHacerMeta` from
`src/services/gtd-service.js` (the revision `server.js` imports). -/

/-- Result of `evaluateActionability`. -/
structure QaResult where
  actionableScore : Int
  actionableOk : Bool
  actionableFeedback : String
deriving DecidableEq, Repr

/-- The `vague` phrase list of `evaluateActionability`. -/
def vaguePhrases : List String :=
  ["hacer", "ver", "revisar tema", "pendiente", "trabajar", "organizar"]

/-- `evaluateActionability(text)` of `src/services/gtd-service.js`: scores
how actionable a task title is (infinitive start, word count, length,
vague phrasing). -/
def evaluateActionability (text : String) : QaResult :=
  let t := text.trim
  let words := (t.split Char.isWhitespace).filter (· ≠ "")
  let first := (words.headD "").toLower
  let startsWithInfinitive :=
    first.endsWith "ar" || first.endsWith "ár" || first.endsWith "er" || first.endsWith "ir"
  let hasEnoughWords := words.length ≥ 2
  let tooLong := t.length > 140
  let hasVaguePattern :=
    vaguePhrases.any (fun v => t.toLower = v || t.toLower.startsWith (v ++ " "))
  let score : Int :=
    (if startsWithInfinitive then 40 else 0) + (if hasEnoughWords then 30 else 0) +
      (if ¬tooLong then 20 else 0) + (if ¬hasVaguePattern then 10 else 0)
  let feedback := String.intercalate " "
    ((if ¬startsWithInfinitive then
        ["Empieza con un verbo en infinitivo (Ej: Llamar, Enviar, Definir)."] else []) ++
      (if ¬hasEnoughWords then ["Hazla más específica (mínimo 2 palabras)."] else []) ++
      (if tooLong then ["Hazla más corta y concreta (ideal <= 140 caracteres)."] else []) ++
      (if hasVaguePattern then ["Evita frases vagas; especifica el resultado."] else []))
  { actionableScore := score, actionableOk := score ≥ 70, actionableFeedback := feedback }

/-- The fields of an existing item that `withHacerMeta` reads. -/
structure HacerFields where
  urgency : Option Int
  importance : Option Int
  estimateMin : Option Int
  title : Option String
  input : Option String
deriving DecidableEq, Repr

/-- The fields of a patch that `withHacerMeta` reads.  (Any extra patch
keys are spread into the result unchanged and carry no derived data.) -/
structure HacerPatch where
  urgency : Option Int
  importance : Option Int
  estimateMin : Option Int
  title : Option String
deriving DecidableEq, Repr

/-- The derived fields `withHacerMeta` computes and merges over the patch. -/
structure HacerMeta where
  title : String
  urgency : Int
  importance : Int
  estimateMin : Int
  priorityScore : Int
  durationWarning : Option String
  actionableScore : Int
  actionableOk : Bool
  actionableFeedback : String
deriving DecidableEq, Repr

/-- `withHacerMeta(item, patch)` of `src/services/gtd-service.js`: resolves
urgency/importance/estimate through the `??` chains, clamps the estimate
to 1..10, recomputes `priorityScore = urgency * importance`, and attaches
the actionability QA data. -/
def withHacerMeta (item : HacerFields) (patch : HacerPatch) : HacerMeta :=
  let urgency := patch.urgency.getD (item.urgency.getD 3)
  let importance := patch.importance.getD (item.importance.getD 3)
  let estimateMinRaw := patch.estimateMin.getD (item.estimateMin.getD 10)
  let estimateMin := min 10 (max 1 estimateMinRaw)
  let title := (patch.title.getD (item.title.getD (item.input.getD ""))).trim
  let qa := evaluateActionability title
  let priorityScore := urgency * importance
  let durationWarning :=
    if estimateMinRaw > 10 then
      some ("Esta tarea requiere más de 10 minutos (" ++ toString estimateMinRaw ++
        " min). Considera moverla a Desglosar para dividirla en pasos más pequeños.")
    else none
  { title := title, urgency := urgency, importance := importance,
    estimateMin := estimateMin, priorityScore := priorityScore,
    durationWarning := durationWarning, actionableScore := qa.actionableScore,
    actionableOk := qa.actionableOk, actionableFeedback := qa.actionableFeedback }

/-- C9: an item enriched for the `hacer` list always gets
`priorityScore = urgency × importance`; when the patch supplies integer
urgency and importance in 1–5 the score is their product, an integer in
1–25 (so urgency 5 and importance 4 yield 20). -/
theorem hacer_priority_score (item : HacerFields) (patch : HacerPatch) :
    (withHacerMeta item patch).priorityScore =
      (withHacerMeta item patch).urgency * (withHacerMeta item patch).importance ∧
    (∀ u i : Int, patch.urgency = some u → patch.importance = some i →
      1 ≤ u → u ≤ 5 → 1 ≤ i → i ≤ 5 →
      (withHacerMeta item patch).priorityScore = u * i ∧
      1 ≤ (withHacerMeta item patch).priorityScore ∧
      (withHacerMeta item patch).priorityScore ≤ 25) := by
  constructor
  · rfl
  · intro u i hu hi h1u h5u h1i h5i
    have hps : (withHacerMeta item patch).priorityScore = u * i := by
      simp [withHacerMeta, hu, hi]
    refine ⟨hps, ?_, ?_⟩
    · rw [hps]; nlinarith
    · rw [hps]; nlinarith

/-! ### Remote document-table backend (claims C2 and C4)

One row per item: `id`, `owner`, `payload`, `updated_at`.  The operations
are modelled from the spec (§4.1) because the current `lib/store.js` is
absent from the snapshot; the reads match the superseded revision's
Supabase branch of `loadDb` (select by owner, newest first) and the
owner-scoped calls made by `src/helpers/data-access.js`. -/

/-- The parts of a stored item the remote-backend model depends on:
its id, the payload fields the narrow queries filter on (`list`,
`status`), its `updatedAt` stamp, and the rest of the document opaque. -/
structure StoreItem where
  id : String
  list : String
  status : String
  updatedAt : Int
  doc : String
deriving DecidableEq, Repr

/-- One row of the `gtd_items` table. -/
structure DbRow where
  id : String
  owner : String
  payload : StoreItem
  updatedAt : Int
deriving DecidableEq, Repr

/-- The row written for `item` under `owner`, as built by `saveDb`:
`{ id: item.id, owner, payload: item, updated_at: item.updatedAt }`. -/
def rowOf (owner : String) (it : StoreItem) : DbRow :=
  ⟨it.id, owner, it, it.updatedAt⟩

/-- The remote table state. -/
abbrev RemoteDb : Type := List DbRow

/-- The rows belonging to `owner` (`.eq('owner', owner)`). -/
def ownerRows (owner : String) (s : RemoteDb) : List DbRow :=
  s.filter (fun r => r.owner == owner)

/-- Stable insertion into a list sorted by `updatedAt` descending. -/
def insertByUpdatedDesc (r : DbRow) : List DbRow → List DbRow
  | [] => [r]
  | x :: xs =>
    if x.updatedAt < r.updatedAt then r :: x :: xs else x :: insertByUpdatedDesc r xs

/-- Stable sort by `updatedAt` descending
(`.order('updated_at', { ascending: false })`). -/
def sortByUpdatedDesc : List DbRow → List DbRow
  | [] => []
  | x :: xs => insertByUpdatedDesc x (sortByUpdatedDesc xs)

theorem mem_insertByUpdatedDesc (a r : DbRow) (l : List DbRow) :
    a ∈ insertByUpdatedDesc r l ↔ a = r ∨ a ∈ l := by
  induction l with
  | nil => simp [insertByUpdatedDesc]
  | cons x xs ih =>
    simp only [insertByUpdatedDesc]
    split
    · simp [List.mem_cons]
    · simp only [List.mem_cons, ih]
      tauto

theorem mem_sortByUpdatedDesc (a : DbRow) (l : List DbRow) :
    a ∈ sortByUpdatedDesc l ↔ a ∈ l := by
  induction l with
  | nil => simp [sortByUpdatedDesc]
  | cons x xs ih => simp [sortByUpdatedDesc, mem_insertByUpdatedDesc, ih]

/-- Modelled from the spec: remote `loadDb(owner)` — select the owner's
rows ordered by `updated_at` descending and return their payloads. -/
def loadDbRemote (owner : String) (s : RemoteDb) : List StoreItem :=
  (sortByUpdatedDesc (ownerRows owner s)).map (·.payload)

/-- Modelled from the spec: remote `loadItemsForList(list, {owner,
excludeDone})` — the owner's items on `list`, optionally without the done
ones. -/
def loadItemsForListRemote (owner lst : String) (excludeDone : Bool) (s : RemoteDb) :
    List StoreItem :=
  (loadDbRemote owner s).filter (fun i => i.list == lst && (!excludeDone || !(i.status == "done")))

/-- Modelled from the spec: remote `loadItemsByStatus(status, {owner})`. -/
def loadItemsByStatusRemote (owner st : String) (s : RemoteDb) : List StoreItem :=
  (loadDbRemote owner s).filter (fun i => i.status == st)

/-- Modelled from the spec: remote `loadItemById(id, {owner})` — the
payload of the owner's row with that id, if any. -/
def loadItemByIdRemote (owner iid : String) (s : RemoteDb) : Option StoreItem :=
  ((ownerRows owner s).find? (fun r => r.id == iid)).map (·.payload)

/-- Upsert of a single row keyed by `(id, owner)`: replace the matching
row if present, insert otherwise. -/
def upsertRowOne (owner : String) (it : StoreItem) (s : RemoteDb) : RemoteDb :=
  if s.any (fun r => r.id == it.id && r.owner == owner) then
    s.map (fun r => if r.id == it.id && r.owner == owner then rowOf owner it else r)
  else s ++ [rowOf owner it]

/-- State effect of the single batched upsert of `saveAll` step 1: every
item of the list upserted keyed by `(id, owner)`. -/
def batchUpsert (owner : String) (items : List StoreItem) (s : RemoteDb) : RemoteDb :=
  items.foldl (fun acc it => upsertRowOne owner it acc) s

/-- One batched call of the remote `saveAll` reconciliation, in the order
issued. -/
inductive RemoteBatch where
  | upsertRows (owner : String) (items : List StoreItem)
  | deleteIds (owner : String) (ids : List String)
  | deleteAllForOwner (owner : String)
deriving DecidableEq, Repr

/-- The ids currently stored for `owner` but absent from `items` — the
rows `saveAll` step 2 deletes. -/
def staleIdsFor (owner : String) (items : List StoreItem) (s : RemoteDb) : List String :=
  ((ownerRows owner s).map (·.id)).filter (fun iid => !((items.map (·.id)).contains iid))

/-- Modelled from the spec: remote `saveDb(db, {owner})` (`saveAll`)
reconciles instead of delete-then-insert: upsert every item in one batch,
then delete exactly the owner's stale ids in one batch, in that order;
an empty list deletes all of the owner's rows.  Returns the new state and
the trace of batched calls in issue order. -/
def saveDbRemote (owner : String) (items : List StoreItem) (s : RemoteDb) :
    RemoteDb × List RemoteBatch :=
  if items.isEmpty then
    (s.filter (fun r => !(r.owner == owner)), [RemoteBatch.deleteAllForOwner owner])
  else
    let stale := staleIdsFor owner items s
    let s1 := batchUpsert owner items s
    (s1.filter (fun r => !(r.owner == owner && stale.contains r.id)),
      [RemoteBatch.upsertRows owner items, RemoteBatch.deleteIds owner stale])

/-- Modelled from the spec: remote `saveItem(item, {owner})` (`saveOne`)
— a single upsert by `(id, owner)`. -/
def saveItemRemote (owner : String) (it : StoreItem) (s : RemoteDb) : RemoteDb :=
  upsertRowOne owner it s

/-- Modelled from the spec: remote `deleteItemById(id, {owner})` —
delete by `(id, owner)`. -/
def deleteItemRemote (owner iid : String) (s : RemoteDb) : RemoteDb :=
  s.filter (fun r => !(r.id == iid && r.owner == owner))

theorem contains_eq_false_iff {α : Type} [BEq α] [LawfulBEq α] (l : List α) (a : α) :
    l.contains a = false ↔ a ∉ l := by
  rw [← Bool.not_eq_true]
  exact not_congr List.elem_iff

/-- C2: remote `saveAll` reconciles: with a non-empty list it issues one
batched upsert of every item followed by one batched delete — in that
order — of exactly the ids stored for the owner but absent from the list
(the final state is the upserted state minus exactly the owner's stale
rows); with an empty list it deletes all of the owner's rows. -/
theorem save_all_reconciles (owner : String) (items : List StoreItem) (s : RemoteDb) :
    (items ≠ [] →
      (saveDbRemote owner items s).2 =
        [RemoteBatch.upsertRows owner items,
          RemoteBatch.deleteIds owner (staleIdsFor owner items s)] ∧
      ∀ r, r ∈ (saveDbRemote owner items s).1 ↔
        r ∈ batchUpsert owner items s ∧
          ¬(r.owner = owner ∧ r.id ∈ staleIdsFor owner items s)) ∧
    (∀ iid, iid ∈ staleIdsFor owner items s ↔
      ((∃ r ∈ s, r.owner = owner ∧ r.id = iid) ∧ ∀ it ∈ items, it.id ≠ iid)) ∧
    (items = [] →
      (saveDbRemote owner items s).2 = [RemoteBatch.deleteAllForOwner owner] ∧
      ∀ r, r ∈ (saveDbRemote owner items s).1 ↔ r ∈ s ∧ r.owner ≠ owner) := by
  refine ⟨?_, ?_, ?_⟩
  · intro hne
    have hemp : items.isEmpty = false := by
      cases items with
      | nil => exact absurd rfl hne
      | cons a l => rfl
    constructor
    · simp [saveDbRemote, hemp]
    · intro r
      simp only [saveDbRemote, hemp, Bool.false_eq_true, if_false, List.mem_filter,
        Bool.not_eq_eq_eq_not, Bool.not_true, Bool.and_eq_false_imp, beq_iff_eq]
      constructor
      · rintro ⟨hmem, hcond⟩
        refine ⟨hmem, ?_⟩
        rintro ⟨hown, hid⟩
        have hh := hcond hown
        rw [contains_eq_false_iff] at hh
        exact hh hid
      · rintro ⟨hmem, hcond⟩
        refine ⟨hmem, ?_⟩
        intro hown
        rw [contains_eq_false_iff]
        intro hid
        exact hcond ⟨hown, hid⟩
  · intro iid
    constructor
    · intro h
      rw [staleIdsFor, List.mem_filter] at h
      obtain ⟨hmem, hcond⟩ := h
      rw [List.mem_map] at hmem
      obtain ⟨r, hr, hrid⟩ := hmem
      rw [ownerRows, List.mem_filter, beq_iff_eq] at hr
      rw [Bool.not_eq_true', contains_eq_false_iff] at hcond
      refine ⟨⟨r, hr.1, hr.2, hrid⟩, ?_⟩
      intro it hit heq
      apply hcond
      rw [List.mem_map]
      exact ⟨it, hit, heq⟩
    · rintro ⟨⟨r, hr, hown, hid⟩, hno⟩
      rw [staleIdsFor, List.mem_filter]
      refine ⟨?_, ?_⟩
      · rw [List.mem_map]
        refine ⟨r, ?_, hid⟩
        rw [ownerRows, List.mem_filter, beq_iff_eq]
        exact ⟨hr, hown⟩
      · rw [Bool.not_eq_true', contains_eq_false_iff]
        intro hmm
        rw [List.mem_map] at hmm
        obtain ⟨it, hit, heq⟩ := hmm
        exact hno it hit heq
  · intro hemp
    subst hemp
    constructor
    · rfl
    · intro r
      simp [saveDbRemote, List.mem_filter]

/-- Concrete instance of the C2 contract at a non-empty list: saving
`[a]` for owner `u1` over a table holding `u1`'s rows `a0, b0` and
`u2`'s row `c0` issues the upsert-then-delete trace with stale id `"b"`
only. -/
theorem save_all_reconciles_witness :
    ([⟨"aaaaaa", "collect", "unprocessed", 5, "A1"⟩] : List StoreItem) ≠ [] ∧
    (saveDbRemote "u1" [⟨"aaaaaa", "collect", "unprocessed", 5, "A1"⟩]
        [rowOf "u1" ⟨"aaaaaa", "collect", "unprocessed", 1, "A0"⟩,
          rowOf "u1" ⟨"bbbbbb", "hacer", "processed", 2, "B0"⟩,
          rowOf "u2" ⟨"cccccc", "collect", "unprocessed", 3, "C0"⟩]).2 =
      [RemoteBatch.upsertRows "u1" [⟨"aaaaaa", "collect", "unprocessed", 5, "A1"⟩],
        RemoteBatch.deleteIds "u1"
          (staleIdsFor "u1" [⟨"aaaaaa", "collect", "unprocessed", 5, "A1"⟩]
            [rowOf "u1" ⟨"aaaaaa", "collect", "unprocessed", 1, "A0"⟩,
              rowOf "u1" ⟨"bbbbbb", "hacer", "processed", 2, "B0"⟩,
              rowOf "u2" ⟨"cccccc", "collect", "unprocessed", 3, "C0"⟩])] ∧
    staleIdsFor "u1" [⟨"aaaaaa", "collect", "unprocessed", 5, "A1"⟩]
        [rowOf "u1" ⟨"aaaaaa", "collect", "unprocessed", 1, "A0"⟩,
          rowOf "u1" ⟨"bbbbbb", "hacer", "processed", 2, "B0"⟩,
          rowOf "u2" ⟨"cccccc", "collect", "unprocessed", 3, "C0"⟩] = ["bbbbbb"] := by
  refine ⟨by decide, ?_, by decide⟩
  exact (save_all_reconciles "u1" [⟨"aaaaaa", "collect", "unprocessed", 5, "A1"⟩]
    [rowOf "u1" ⟨"aaaaaa", "collect", "unprocessed", 1, "A0"⟩,
      rowOf "u1" ⟨"bbbbbb", "hacer", "processed", 2, "B0"⟩,
      rowOf "u2" ⟨"cccccc", "collect", "unprocessed", 3, "C0"⟩]).1 (by decide) |>.1

/-- A write operation of the store contract, as performed by a request
on behalf of one owner. -/
inductive StoreWrite where
  | saveAll (items : List StoreItem)
  | saveOne (it : StoreItem)
  | deleteOne (iid : String)
deriving DecidableEq, Repr

/-- State effect of one write performed with `owner`. -/
def applyWrite (owner : String) (w : StoreWrite) (s : RemoteDb) : RemoteDb :=
  match w with
  | StoreWrite.saveAll items => (saveDbRemote owner items s).1
  | StoreWrite.saveOne it => saveItemRemote owner it s
  | StoreWrite.deleteOne iid => deleteItemRemote owner iid s

/-- State effect of a sequence of writes performed with `owner`, in
program order. -/
def applyWrites (owner : String) (ws : List StoreWrite) (s : RemoteDb) : RemoteDb :=
  ws.foldl (fun acc w => applyWrite owner w acc) s

/-- `it` is saved by some write of the sequence (a `saveOne` of it, or a
`saveAll` whose list contains it). -/
def savedByWrites (it : StoreItem) (ws : List StoreWrite) : Prop :=
  ∃ w ∈ ws, w = StoreWrite.saveOne it ∨
    ∃ items, w = StoreWrite.saveAll items ∧ it ∈ items

theorem ownerRows_cons (Y : String) (a : DbRow) (l : List DbRow) :
    ownerRows Y (a :: l) =
      if a.owner = Y then a :: ownerRows Y l else ownerRows Y l := by
  rw [ownerRows, List.filter_cons]
  by_cases h : a.owner = Y
  · rw [if_pos h, if_pos (beq_iff_eq.mpr h)]
    rfl
  · rw [if_neg h, if_neg (by simpa using h)]
    rfl

theorem ownerRows_filter (Y : String) (p : DbRow → Bool) (s : RemoteDb)
    (hp : ∀ r, r.owner = Y → p r = true) :
    ownerRows Y (s.filter p) = ownerRows Y s := by
  induction s with
  | nil => rfl
  | cons x xs ih =>
    rw [List.filter_cons]
    by_cases hx : x.owner = Y
    · rw [if_pos (hp x hx), ownerRows_cons, if_pos hx, ih, ownerRows_cons, if_pos hx]
    · by_cases hpx : p x = true
      · rw [if_pos hpx, ownerRows_cons, if_neg hx, ih, ownerRows_cons, if_neg hx]
      · rw [if_neg hpx, ih, ownerRows_cons, if_neg hx]

theorem ownerRows_map (Y : String) (f : DbRow → DbRow) (s : RemoteDb)
    (hfix : ∀ r, r.owner = Y → f r = r)
    (hoth : ∀ r, r.owner ≠ Y → (f r).owner ≠ Y) :
    ownerRows Y (s.map f) = ownerRows Y s := by
  induction s with
  | nil => rfl
  | cons x xs ih =>
    rw [List.map_cons, ownerRows_cons, ownerRows_cons]
    by_cases hx : x.owner = Y
    · rw [hfix x hx, if_pos hx, if_pos hx, ih]
    · rw [if_neg (hoth x hx), if_neg hx, ih]

theorem ownerRows_append (Y : String) (l1 l2 : List DbRow) :
    ownerRows Y (l1 ++ l2) = ownerRows Y l1 ++ ownerRows Y l2 := by
  rw [ownerRows, List.filter_append]
  rfl

theorem ownerRows_upsertRowOne (X Y : String) (hne : Y ≠ X) (it : StoreItem)
    (s : RemoteDb) : ownerRows Y (upsertRowOne X it s) = ownerRows Y s := by
  rw [upsertRowOne]
  split
  · apply ownerRows_map
    · intro r hr
      have hb : (r.id == it.id && r.owner == X) = false := by
        have hX : (r.owner == X) = false := by
          rw [hr]
          exact beq_eq_false_iff_ne.mpr hne
        rw [hX, Bool.and_false]
      rw [hb]
      rfl
    · intro r hr
      by_cases hcond : (r.id == it.id && r.owner == X) = true
      · rw [hcond, if_pos rfl]
        exact fun h => hne h.symm
      · rw [Bool.not_eq_true] at hcond
        rw [hcond]
        exact hr
  · rw [ownerRows_append, ownerRows_cons,
      if_neg (show ¬((rowOf X it).owner = Y) from fun h => hne h.symm)]
    exact List.append_nil _

theorem ownerRows_batchUpsert (X Y : String) (hne : Y ≠ X) (items : List StoreItem)
    (s : RemoteDb) : ownerRows Y (batchUpsert X items s) = ownerRows Y s := by
  induction items generalizing s with
  | nil => rfl
  | cons it rest ih =>
    rw [batchUpsert, List.foldl_cons, ← batchUpsert, ih, ownerRows_upsertRowOne X Y hne]

theorem ownerRows_applyWrite (X Y : String) (hne : Y ≠ X) (w : StoreWrite)
    (s : RemoteDb) : ownerRows Y (applyWrite X w s) = ownerRows Y s := by
  cases w with
  | saveAll items =>
    rw [applyWrite, saveDbRemote]
    split
    · apply ownerRows_filter
      intro r hr
      rw [hr, beq_eq_false_iff_ne.mpr hne]
      rfl
    · dsimp only
      rw [ownerRows_filter, ownerRows_batchUpsert X Y hne]
      intro r hr
      have hX : (r.owner == X) = false := by
        rw [hr]
        exact beq_eq_false_iff_ne.mpr hne
      rw [hX, Bool.false_and]
      rfl
  | saveOne it => exact ownerRows_upsertRowOne X Y hne it s
  | deleteOne iid =>
    rw [applyWrite, deleteItemRemote]
    apply ownerRows_filter
    intro r hr
    have hX : (r.owner == X) = false := by
      rw [hr]
      exact beq_eq_false_iff_ne.mpr hne
    rw [hX, Bool.and_false]
    rfl

theorem ownerRows_applyWrites (X Y : String) (hne : Y ≠ X) (ws : List StoreWrite)
    (s : RemoteDb) : ownerRows Y (applyWrites X ws s) = ownerRows Y s := by
  induction ws generalizing s with
  | nil => rfl
  | cons w rest ih =>
    rw [applyWrites, List.foldl_cons, ← applyWrites, ih, ownerRows_applyWrite X Y hne]

/-- C4: owner isolation — an item saved by any sequence of writes
performed with owner `X` (and not already visible to owner `Y ≠ X`) is
never returned by `loadAll`, `loadByList`, `loadByStatus` or `loadById`
performed with owner `Y` afterwards. -/
theorem owner_isolation (X Y : String) (ws : List StoreWrite) (s : RemoteDb)
    (it : StoreItem) (hne : Y ≠ X) (hsaved : savedByWrites it ws)
    (hbefore : it ∉ loadDbRemote Y s) :
    it ∉ loadDbRemote Y (applyWrites X ws s) ∧
    (∀ lst ed, it ∉ loadItemsForListRemote Y lst ed (applyWrites X ws s)) ∧
    (∀ st, it ∉ loadItemsByStatusRemote Y st (applyWrites X ws s)) ∧
    (∀ iid, loadItemByIdRemote Y iid (applyWrites X ws s) ≠ some it) := by
  have hrows : ownerRows Y (applyWrites X ws s) = ownerRows Y s :=
    ownerRows_applyWrites X Y hne ws s
  have hload : loadDbRemote Y (applyWrites X ws s) = loadDbRemote Y s := by
    rw [loadDbRemote, hrows, loadDbRemote]
  refine ⟨hload ▸ hbefore, ?_, ?_, ?_⟩
  · intro lst ed hmem
    rw [loadItemsForListRemote, hload] at hmem
    exact hbefore (List.mem_of_mem_filter hmem)
  · intro st hmem
    rw [loadItemsByStatusRemote, hload] at hmem
    exact hbefore (List.mem_of_mem_filter hmem)
  · intro iid heq
    rw [loadItemByIdRemote, hrows] at heq
    rw [Option.map_eq_some'] at heq
    obtain ⟨r, hfind, hpay⟩ := heq
    apply hbefore
    rw [loadDbRemote, List.mem_map]
    exact ⟨r, (mem_sortByUpdatedDesc r _).mpr (List.mem_of_find?_eq_some hfind), hpay⟩

/-- Concrete instance of C4: `u1` saving an item is invisible to `u2`'s
loads. -/
theorem owner_isolation_witness :
    ("u2" : String) ≠ "u1" ∧
    savedByWrites ⟨"aaaaaa", "collect", "unprocessed", 5, "A"⟩
      [StoreWrite.saveOne ⟨"aaaaaa", "collect", "unprocessed", 5, "A"⟩] ∧
    ⟨"aaaaaa", "collect", "unprocessed", 5, "A"⟩ ∉ loadDbRemote "u2" ([] : RemoteDb) ∧
    (⟨"aaaaaa", "collect", "unprocessed", 5, "A"⟩ : StoreItem) ∉
      loadDbRemote "u2"
        (applyWrites "u1"
          [StoreWrite.saveOne ⟨"aaaaaa", "collect", "unprocessed", 5, "A"⟩]
          ([] : RemoteDb)) := by
  refine ⟨by decide, ⟨StoreWrite.saveOne ⟨"aaaaaa", "collect", "unprocessed", 5, "A"⟩,
    by decide, Or.inl rfl⟩, by decide, ?_⟩
  exact (owner_isolation "u1" "u2"
    [StoreWrite.saveOne ⟨"aaaaaa", "collect", "unprocessed", 5, "A"⟩] []
    ⟨"aaaaaa", "collect", "unprocessed", 5, "A"⟩ (by decide)
    ⟨StoreWrite.saveOne ⟨"aaaaaa", "collect", "unprocessed", 5, "A"⟩,
      by decide, Or.inl rfl⟩ (by decide)).1

/-! ### Local file backend save (claim C3)

The local `saveDb` write path of the current `lib/store.js` is modelled
from the spec (render fully to a temp file in the same directory, then
atomically rename it over the destination; the repository performance
notes item 3 record the switch to `rename()`).  File-system operations
are an explicit trace so "never writes the destination in place" and
"never reads back the temp file" are statements about the trace. -/

/-- A file path, split into directory and file name so "same directory"
is structural. -/
structure FsPath where
  dir : String
  file : String
deriving DecidableEq, Repr

/-- A file-system operation the save path could issue. -/
inductive FsOp where
  | writeFileOp (p : FsPath) (content : String)
  | readFileOp (p : FsPath)
  | renameOp (src dst : FsPath)
deriving DecidableEq, Repr

/-- The temp path used by the local save: `` `${DB_PATH}.tmp` `` — same
directory, file name extended. -/
def tmpOf (p : FsPath) : FsPath :=
  ⟨p.dir, p.file ++ ".tmp"⟩

/-- Modelled from the spec: the trace of file-system operations issued by
the local `saveDb` — one full write of the rendered document to the temp
file, then one atomic rename of the temp file over the destination. -/
def saveDbLocalTrace (dbPath : FsPath) (rendered : String) : List FsOp :=
  [FsOp.writeFileOp (tmpOf dbPath) rendered, FsOp.renameOp (tmpOf dbPath) dbPath]

/-- Effect of one file-system operation on the file contents (rename is
atomic: the destination flips to the source's content in one step). -/
def applyFsOp (st : FsPath → Option String) (op : FsOp) : FsPath → Option String :=
  match op with
  | FsOp.writeFileOp p c => fun q => if q = p then some c else st q
  | FsOp.readFileOp _ => st
  | FsOp.renameOp a b => fun q => if q = a then none else if q = b then st a else st q

/-- Effect of a trace of file-system operations, in order. -/
def applyFsOps (st : FsPath → Option String) (ops : List FsOp) : FsPath → Option String :=
  ops.foldl applyFsOp st

theorem tmpOf_ne (p : FsPath) : tmpOf p ≠ p := by
  intro h
  have hf : p.file ++ ".tmp" = p.file := congrArg FsPath.file h
  have hl := congrArg String.length hf
  rw [String.length_append] at hl
  have h4 : (".tmp" : String).length = 4 := rfl
  omega

/-- C3: the local save renders the document fully into a temp file in the
destination's directory and then atomically renames it over the
destination; the destination path is never written directly and nothing
is ever read back; consequently, after any prefix of the save the
destination holds either its old content or the complete new document. -/
theorem local_save_atomic (dbPath : FsPath) (rendered : String) :
    saveDbLocalTrace dbPath rendered =
      [FsOp.writeFileOp (tmpOf dbPath) rendered,
        FsOp.renameOp (tmpOf dbPath) dbPath] ∧
    (tmpOf dbPath).dir = dbPath.dir ∧
    (∀ c, FsOp.writeFileOp dbPath c ∉ saveDbLocalTrace dbPath rendered) ∧
    (∀ p, FsOp.readFileOp p ∉ saveDbLocalTrace dbPath rendered) ∧
    (∀ st0 n,
      applyFsOps st0 ((saveDbLocalTrace dbPath rendered).take n) dbPath = st0 dbPath ∨
      applyFsOps st0 ((saveDbLocalTrace dbPath rendered).take n) dbPath = some rendered) := by
  refine ⟨rfl, rfl, ?_, ?_, ?_⟩
  · intro c h
    simp only [saveDbLocalTrace, List.mem_cons, List.not_mem_nil, or_false] at h
    rcases h with h | h
    · injection h with h1 h2
      exact tmpOf_ne dbPath h1.symm
    · exact FsOp.noConfusion h
  · intro p h
    simp only [saveDbLocalTrace, List.mem_cons, List.not_mem_nil, or_false] at h
    rcases h with h | h
    · exact FsOp.noConfusion h
    · exact FsOp.noConfusion h
  · intro st0 n
    have hne' : dbPath ≠ tmpOf dbPath := fun h => tmpOf_ne dbPath h.symm
    match n with
    | 0 => exact Or.inl rfl
    | 1 =>
      left
      simp [saveDbLocalTrace, applyFsOps, applyFsOp, hne']
    | (m + 2) =>
      right
      simp [saveDbLocalTrace, applyFsOps, applyFsOp, hne']

/-- Concrete instance of C3: with the destination initially holding
`old`, the state after the first step of the save still shows `old` at
the destination, and after the full save shows the new document. -/
theorem local_save_atomic_witness :
    (applyFsOps (fun _ => some "old")
        ((saveDbLocalTrace ⟨"data", "db.json"⟩ "newdoc").take 1) ⟨"data", "db.json"⟩ =
        (fun _ => some "old") (⟨"data", "db.json"⟩ : FsPath) ∨
      applyFsOps (fun _ => some "old")
        ((saveDbLocalTrace ⟨"data", "db.json"⟩ "newdoc").take 1) ⟨"data", "db.json"⟩ =
        some "newdoc") ∧
    (applyFsOps (fun _ => some "old")
        ((saveDbLocalTrace ⟨"data", "db.json"⟩ "newdoc").take 2) ⟨"data", "db.json"⟩ =
        (fun _ => some "old") (⟨"data", "db.json"⟩ : FsPath) ∨
      applyFsOps (fun _ => some "old")
        ((saveDbLocalTrace ⟨"data", "db.json"⟩ "newdoc").take 2) ⟨"data", "db.json"⟩ =
        some "newdoc") := by
  exact ⟨(local_save_atomic ⟨"data", "db.json"⟩ "newdoc").2.2.2.2 (fun _ => some "old") 1,
    (local_save_atomic ⟨"data", "db.json"⟩ "newdoc").2.2.2.2 (fun _ => some "old") 2⟩

/-! ### Recent-duplicate suppression (claim C8)

The guard predicate comes from the `/collect/add` handler of the snapshot
(`list === 'collect'`, `status !== 'done'`, stored input trimmed and
lower-cased against the lower-cased query text, creation time within
3000 ms of now); `findRecentDuplicate` itself — absent from the snapshot
— is modelled from the spec as the first match over the candidate items
(the owner's bounded recent rows in remote mode, `db.items` locally). -/

/-- JavaScript `String.prototype.toLowerCase()`, modelled per character
(kernel-computable, unlike `String.toLower`'s positional recursion). -/
def jsToLower (s : String) : String :=
  String.mk (s.data.map Char.toLower)

/-- JavaScript `String.prototype.trim()`: strip leading and trailing
whitespace (kernel-computable). -/
def jsTrim (s : String) : String :=
  String.mk (((s.data.dropWhile Char.isWhitespace).reverse.dropWhile
    Char.isWhitespace).reverse)

/-- The fields of a stored item the duplicate guard reads; `createdAtMs`
models `new Date(i.createdAt || 0).getTime()`. -/
structure CollectItem where
  input : String
  list : String
  status : String
  createdAtMs : Int
  doc : String
deriving DecidableEq, Repr

/-- The `/collect/add` recent-duplicate guard predicate. -/
def isRecentCollectDuplicate (now : Int) (needle : String) (i : CollectItem) : Bool :=
  i.list == "collect" && !(i.status == "done") &&
    (jsToLower (jsTrim i.input) == jsToLower needle) &&
    decide ((now - i.createdAtMs).natAbs < 3000)

/-- Modelled from the spec: `findRecentDuplicate(inputText, {owner})` —
the first candidate item matching the recent-duplicate guard, or none. -/
def findRecentDuplicate (now : Int) (needle : String) (items : List CollectItem) :
    Option CollectItem :=
  items.find? (isRecentCollectDuplicate now needle)

/-- C8: `findRecentDuplicate` returns an existing candidate with
`list = collect`, status not `done`, trimmed case-insensitive input
equality, and creation time within 3 seconds of now — and null when no
candidate matches; for such an item created at `T`, querying at
`T + 2s` finds it and querying at `T + 4s` does not. -/
theorem find_recent_duplicate_window (now : Int) (needle : String)
    (items : List CollectItem) :
    (∀ i, findRecentDuplicate now needle items = some i →
      i ∈ items ∧ i.list = "collect" ∧ i.status ≠ "done" ∧
      jsToLower (jsTrim i.input) = jsToLower needle ∧
      (now - i.createdAtMs).natAbs < 3000) ∧
    (findRecentDuplicate now needle items = none ↔
      ∀ i ∈ items, isRecentCollectDuplicate now needle i = false) ∧
    (∀ (c : CollectItem) (T : Int), c.list = "collect" → c.status ≠ "done" →
      jsToLower (jsTrim c.input) = jsToLower needle → c.createdAtMs = T →
      findRecentDuplicate (T + 2000) needle [c] = some c ∧
      findRecentDuplicate (T + 4000) needle [c] = none) := by
  refine ⟨?_, ?_, ?_⟩
  · intro i hfind
    have hmem := List.mem_of_find?_eq_some hfind
    have hp := List.find?_some hfind
    rw [isRecentCollectDuplicate] at hp
    simp only [Bool.and_eq_true, beq_iff_eq, Bool.not_eq_true', beq_eq_false_iff_ne,
      decide_eq_true_eq] at hp
    exact ⟨hmem, hp.1.1.1, hp.1.1.2, hp.1.2, hp.2⟩
  · rw [findRecentDuplicate, List.find?_eq_none]
    constructor
    · intro h i hi
      rw [← Bool.not_eq_true]
      exact h i hi
    · intro h i hi
      rw [h i hi]
      exact Bool.false_ne_true
  · intro c T hlist hstatus hinput hT
    have h2 : isRecentCollectDuplicate (T + 2000) needle c = true := by
      rw [isRecentCollectDuplicate, hT]
      simp only [Bool.and_eq_true, beq_iff_eq, Bool.not_eq_true', beq_eq_false_iff_ne,
        decide_eq_true_eq]
      refine ⟨⟨⟨hlist, hstatus⟩, hinput⟩, ?_⟩
      have : T + 2000 - T = 2000 := by ring
      rw [this]
      decide
    have h4 : isRecentCollectDuplicate (T + 4000) needle c = false := by
      rw [isRecentCollectDuplicate, hT]
      have : T + 4000 - T = 4000 := by ring
      rw [this]
      simp
    constructor
    · rw [findRecentDuplicate, List.find?_cons, h2]
    · rw [findRecentDuplicate, List.find?_cons, h4]
      rfl

/-- Concrete instance of C8: an item captured at `T = 100000` ms is
found again at `T + 2s` and not at `T + 4s`. -/
theorem find_recent_duplicate_window_witness :
    findRecentDuplicate 102000 "Llamar al banco"
        [⟨"llamar al banco ", "collect", "unprocessed", 100000, "D"⟩] =
      some ⟨"llamar al banco ", "collect", "unprocessed", 100000, "D"⟩ ∧
    findRecentDuplicate 104000 "Llamar al banco"
        [⟨"llamar al banco ", "collect", "unprocessed", 100000, "D"⟩] = none := by
  have h := (find_recent_duplicate_window 0 "Llamar al banco"
    [⟨"llamar al banco ", "collect", "unprocessed", 100000, "D"⟩]).2.2
    ⟨"llamar al banco ", "collect", "unprocessed", 100000, "D"⟩ 100000
    rfl (by decide) (by decide) rfl
  exact ⟨h.1, h.2⟩

/-! ### Import normalizer (claims C5, C6, C7)

`src/validators/import-payload.js` (present in the snapshot).  Thrown
`Error(msg)` values become `Except String`; the thrown
`ImportValidationError` becomes the structured error below.  The
sanitizer is a parameter, as in the source; the platform's
`new Date(s)` parser (validity plus `toISOString()`) is the parameter
`dp`; `new Date().toISOString()` — the current time — is the parameter
`now`.  String coercions that the validator rejects identically
(non-integral numeric strings beyond plain decimal literals, JS
array-to-primitive coercion) are modelled as NaN. -/

/-- Truthiness of a JSON value (`!importData`, `clean || …`). -/
def jsTruthy : Json → Bool
  | Json.jnull => false
  | Json.jbool b => b
  | Json.jnum n => decide (n ≠ 0)
  | Json.jstr s => decide (s ≠ "")
  | Json.jarr _ => true
  | Json.jobj _ => true

/-- Property lookup on a JS object literal: the last assignment of a key
wins (`JSON.parse` keeps the last duplicate key). -/
def objGetLast (fs : List (String × Json)) (k : String) : Option Json :=
  (fs.reverse.find? (fun p => p.1 == k)).map (·.2)

/-- `value.k` on a JSON value: a field of an object, `undefined`
(`none`) otherwise. -/
def getField (v : Json) (k : String) : Option Json :=
  match v with
  | Json.jobj fs => objGetLast fs k
  | _ => none

/-- `Object.keys(value)` for an object value, `[]` otherwise. -/
def jsonKeys : Json → List String
  | Json.jobj fs => fs.map (·.1)
  | _ => []

def digitsToNat (ds : List Char) : Nat :=
  ds.foldl (fun acc c => acc * 10 + (c.toNat - 48)) 0

/-- `Number(s)` for a string, restricted to the integer results the
validator accepts: whitespace-only is 0, plain decimal integer literals
parse, anything else is NaN or non-integral (`none`). -/
def jsStringToInt (s : String) : Option Int :=
  let t := jsTrim s
  if t = "" then some 0
  else
    match t.data with
    | '-' :: ds =>
      if ds ≠ [] ∧ ds.all Char.isDigit then some (-(digitsToNat ds : Int)) else none
    | ds => if ds.all Char.isDigit then some ((digitsToNat ds : Int)) else none

/-- `Number(value)` when `Number.isInteger` holds of it, `none`
otherwise (NaN, non-integral, or a non-primitive value). -/
def jsNumberAsInt : Json → Option Int
  | Json.jnull => some 0
  | Json.jbool b => some (if b then 1 else 0)
  | Json.jnum n => some n
  | Json.jstr s => jsStringToInt s
  | Json.jarr _ => none
  | Json.jobj _ => none

/-- `toSanitizedString(value, maxLen, sanitizeInput, { nullable: true })`:
null/undefined give null; non-strings throw; the sanitized string is
length-checked and empties collapse to null. -/
def toSanitizedStringN (value : Option Json) (maxLen : Nat) (san : String → String) :
    Except String (Option String) :=
  match value with
  | none => Except.ok none
  | some Json.jnull => Except.ok none
  | some (Json.jstr s) =>
    let clean := san s
    if clean.length > maxLen then
      Except.error ("must be <= " ++ toString maxLen ++ " chars")
    else if clean = "" then Except.ok none
    else Except.ok (some clean)
  | some _ => Except.error "must be a string"

/-- `toSanitizedString(value, maxLen, sanitizeInput, { nullable: false })`:
null/undefined give `''` (without the emptiness check); a present string
that sanitizes to empty throws `cannot be empty`. -/
def toSanitizedStringR (value : Option Json) (maxLen : Nat) (san : String → String) :
    Except String String :=
  match value with
  | none => Except.ok ""
  | some Json.jnull => Except.ok ""
  | some (Json.jstr s) =>
    let clean := san s
    if clean.length > maxLen then
      Except.error ("must be <= " ++ toString maxLen ++ " chars")
    else if clean = "" then Except.error "cannot be empty"
    else Except.ok clean
  | some _ => Except.error "must be a string"

/-- `toBoundedInt(value, {min, max})` (always called nullable). -/
def toBoundedInt (value : Option Json) (lo hi : Int) : Except String (Option Int) :=
  match value with
  | none => Except.ok none
  | some Json.jnull => Except.ok none
  | some (Json.jstr "") => Except.ok none
  | some v =>
    match jsNumberAsInt v with
    | none => Except.error "must be an integer"
    | some n =>
      if n < lo ∨ hi < n then
        Except.error ("must be between " ++ toString lo ++ " and " ++ toString hi)
      else Except.ok (some n)

/-- `toBoundedNumber(value, {min, max})` (always called nullable);
numbers are modelled as integers, so the finiteness check coincides with
the integer check apart from the error text. -/
def toBoundedNumber (value : Option Json) (lo hi : Int) : Except String (Option Int) :=
  match value with
  | none => Except.ok none
  | some Json.jnull => Except.ok none
  | some (Json.jstr "") => Except.ok none
  | some v =>
    match jsNumberAsInt v with
    | none => Except.error "must be a number"
    | some n =>
      if n < lo ∨ hi < n then
        Except.error ("must be between " ++ toString lo ++ " and " ++ toString hi)
      else Except.ok (some n)

/-- `new Date(s)` + `toISOString()` on a non-empty date string. -/
def toIsoDateApply (dp : String → Option String) (s : String) : Except String String :=
  match dp s with
  | none => Except.error "must be a valid date"
  | some iso => Except.ok iso

/-- `toIsoDate(value)` (nullable): null/undefined/empty give null,
non-strings throw, parse failures throw. -/
def toIsoDateN (dp : String → Option String) (value : Option Json) :
    Except String (Option String) :=
  match value with
  | none => Except.ok none
  | some Json.jnull => Except.ok none
  | some (Json.jstr s) =>
    if s = "" then Except.ok none
    else (toIsoDateApply dp s).map some
  | some _ => Except.error "must be a string date"

/-- `toIsoDate(value, { nullable: false })`: null/undefined/empty default
to the current time `now`. -/
def toIsoDateReq (now : String) (dp : String → Option String) (value : Option Json) :
    Except String String :=
  match value with
  | none => Except.ok now
  | some Json.jnull => Except.ok now
  | some (Json.jstr s) =>
    if s = "" then Except.ok now else toIsoDateApply dp s
  | some _ => Except.error "must be a string date"

def IMPORT_ALLOWED_LISTS : List String :=
  ["collect", "hacer", "agendar", "delegar", "desglosar", "no-hacer",
    "inbox", "next", "projects", "waiting", "someday", "calendar", "reference"]

def IMPORT_ALLOWED_KINDS : List String := ["action", "project", "reference"]

def IMPORT_ALLOWED_STATUS : List String := ["unprocessed", "processed", "done"]

def IMPORT_ALLOWED_ITEM_KEYS : List String :=
  ["id", "input", "title", "kind", "list", "context", "nextAction", "notes", "status",
    "createdAt", "updatedAt", "urgency", "importance", "estimateMin", "priorityScore",
    "durationWarning", "actionableScore", "actionableOk", "actionableFeedback",
    "completedAt", "completionComment", "scheduledFor", "delegatedTo", "delegatedFor",
    "objective", "subtasks", "sourceProjectId", "sourceSubtaskId", "tags"]

def IMPORT_ALLOWED_SUBTASK_KEYS : List String :=
  ["id", "text", "status", "sentTo", "sentItemId", "completedAt"]

/-- The id pattern `^[a-zA-Z0-9_-]{6,64}$`. -/
def idPatternOk (s : String) : Bool :=
  decide (6 ≤ s.length) && decide (s.length ≤ 64) &&
    s.data.all (fun c => c.isAlphanum || c == '_' || c == '-')

/-- A normalized subtask. -/
structure Subtask where
  id : String
  text : String
  status : String
  sentTo : Option String
  sentItemId : Option String
  completedAt : Option String
deriving DecidableEq, Repr

/-- A normalized item, exactly the record `normalizeImportedItem`
returns. -/
structure Item where
  id : String
  input : String
  title : String
  kind : Option String
  list : String
  context : Option String
  nextAction : Option String
  notes : Option String
  status : String
  createdAt : String
  updatedAt : String
  urgency : Option Int
  importance : Option Int
  estimateMin : Option Int
  priorityScore : Option Int
  durationWarning : Option String
  actionableScore : Option Int
  actionableOk : Option Bool
  actionableFeedback : Option String
  completedAt : Option String
  completionComment : Option String
  scheduledFor : Option String
  delegatedTo : Option String
  delegatedFor : Option String
  objective : Option String
  subtasks : List Subtask
  sourceProjectId : Option String
  sourceSubtaskId : Option String
  tags : List String
deriving DecidableEq, Repr

/-- One subtask of `normalizeImportedSubtasks`' map (`idx` is its index,
used in error messages). -/
def normalizeImportedSubtask (san : String → String) (dp : String → Option String)
    (idx : Nat) (st : Json) : Except String Subtask :=
  match st with
  | Json.jobj _ => do
    let unknown := (jsonKeys st).filter (fun k => !(IMPORT_ALLOWED_SUBTASK_KEYS.contains k))
    if unknown ≠ [] then
      throw (s!"subtasks[{idx}] has unsupported keys: " ++ String.intercalate ", " unknown)
    let id ← toSanitizedStringR (getField st "id") 64 san
    let text ← toSanitizedStringR (getField st "text") 280 san
    let status ← toSanitizedStringR (getField st "status") 16 san
    if !(["open", "sent", "done"].contains status) then
      throw s!"subtasks[{idx}].status must be open|sent|done"
    let sentTo ← toSanitizedStringN (getField st "sentTo") 32 san
    let sentItemId ← toSanitizedStringN (getField st "sentItemId") 64 san
    let completedAt ← toIsoDateN dp (getField st "completedAt")
    pure ⟨id, text, status, sentTo, sentItemId, completedAt⟩
  | _ => throw s!"subtasks[{idx}] must be an object"

/-- The indexed map over the raw subtasks array. -/
def normalizeSubtasksFrom (san : String → String) (dp : String → Option String)
    (idx : Nat) : List Json → Except String (List Subtask)
  | [] => Except.ok []
  | st :: rest => do
    let s ← normalizeImportedSubtask san dp idx st
    let ss ← normalizeSubtasksFrom san dp (idx + 1) rest
    pure (s :: ss)

/-- `normalizeImportedSubtasks(rawSubtasks, sanitizeInput)`. -/
def normalizeImportedSubtasks (san : String → String) (dp : String → Option String)
    (raw : Option Json) : Except String (List Subtask) :=
  match raw with
  | none => Except.ok []
  | some Json.jnull => Except.ok []
  | some (Json.jarr xs) =>
    if xs.length > 200 then Except.error "subtasks max is 200"
    else normalizeSubtasksFrom san dp 0 xs
  | some _ => Except.error "subtasks must be an array"

/-- The indexed map over the raw tags array. -/
def normalizeTagsFrom (san : String → String) (idx : Nat) :
    List Json → Except String (List String)
  | [] => Except.ok []
  | t :: rest =>
    match t with
    | Json.jstr s =>
      let clean := jsToLower (san s)
      if clean = "" then Except.error s!"tags[{idx}] cannot be empty"
      else if clean.length > 20 then Except.error s!"tags[{idx}] must be <= 20 chars"
      else do
        let ts ← normalizeTagsFrom san (idx + 1) rest
        pure (clean :: ts)
    | _ => Except.error s!"tags[{idx}] must be a string"

/-- `Array.from(new Set(tags))`: deduplicate keeping the first
occurrence, in insertion order. -/
def dedupSeen (seen : List String) : List String → List String
  | [] => []
  | x :: xs =>
    if seen.contains x then dedupSeen seen xs else x :: dedupSeen (seen ++ [x]) xs

/-- `normalizeImportedTags(rawTags, sanitizeInput)`. -/
def normalizeImportedTags (san : String → String) (raw : Option Json) :
    Except String (List String) :=
  match raw with
  | none => Except.ok []
  | some Json.jnull => Except.ok []
  | some (Json.jarr xs) =>
    if xs.length > 20 then Except.error "tags max is 20"
    else do
      let tags ← normalizeTagsFrom san 0 xs
      pure (dedupSeen [] tags)
  | some _ => Except.error "tags must be an array"

/-- The id computation of `normalizeImportedItem`: sanitize the raw `id`
field (required) and check the id pattern.  Depends only on the raw
item's `id` field. -/
def importedItemId (san : String → String) (rawId : Option Json) : Except String String := do
  let id ← toSanitizedStringR rawId 64 san
  if !(idPatternOk id) then throw "id must match [a-zA-Z0-9_-]\x7b6,64\x7d"
  pure id

/-- `normalizeImportedItem(rawItem, sanitizeInput)`, in the source's
evaluation (and therefore error-priority) order; the trailing sanitizer
calls are the ones the returned object literal evaluates in field
order. -/
def normalizeImportedItem (now : String) (dp : String → Option String)
    (san : String → String) (raw : Json) : Except String Item :=
  match raw with
  | Json.jobj _ => do
    let unknown := (jsonKeys raw).filter (fun k => !(IMPORT_ALLOWED_ITEM_KEYS.contains k))
    if unknown ≠ [] then
      throw ("unsupported keys: " ++ String.intercalate ", " unknown)
    let id ← importedItemId san (getField raw "id")
    let inputRaw ← toSanitizedStringN (getField raw "input") 500 san
    let titleRaw ← toSanitizedStringN (getField raw "title") 280 san
    let input ← match inputRaw.orElse (fun _ => titleRaw) with
      | none => throw "input or title is required"
      | some s => pure s
    let title ← pure (titleRaw.getD input)
    let kind ← toSanitizedStringN (getField raw "kind") 32 san
    (match kind with
      | some k =>
        if !(IMPORT_ALLOWED_KINDS.contains k) then
          throw "kind must be action|project|reference"
        else pure ()
      | none => pure ())
    let list ← toSanitizedStringR (getField raw "list") 32 san
    if !(IMPORT_ALLOWED_LISTS.contains list) then throw "list is not supported"
    let status ← toSanitizedStringR (getField raw "status") 32 san
    if !(IMPORT_ALLOWED_STATUS.contains status) then
      throw "status must be unprocessed|processed|done"
    let createdAt ← toIsoDateReq now dp (getField raw "createdAt")
    let updatedAt ← toIsoDateReq now dp (getField raw "updatedAt")
    let completedAt ← toIsoDateN dp (getField raw "completedAt")
    let urgency ← toBoundedInt (getField raw "urgency") 1 5
    let importance ← toBoundedInt (getField raw "importance") 1 5
    let estimateMin ← toBoundedInt (getField raw "estimateMin") 1 600
    let priorityScore ← toBoundedNumber (getField raw "priorityScore") 1 1000
    let actionableScore ← toBoundedNumber (getField raw "actionableScore") 0 100
    let actionableOk ← pure (match getField raw "actionableOk" with
      | none => none
      | some Json.jnull => none
      | some v => some (jsTruthy v))
    let subtasks ← normalizeImportedSubtasks san dp (getField raw "subtasks")
    let tags ← normalizeImportedTags san (getField raw "tags")
    let context ← toSanitizedStringN (getField raw "context") 64 san
    let nextAction ← toSanitizedStringN (getField raw "nextAction") 280 san
    let notes ← toSanitizedStringN (getField raw "notes") 2000 san
    let durationWarning ← toSanitizedStringN (getField raw "durationWarning") 280 san
    let actionableFeedback ← toSanitizedStringN (getField raw "actionableFeedback") 280 san
    let completionComment ← toSanitizedStringN (getField raw "completionComment") 1000 san
    let scheduledFor ← toIsoDateN dp (getField raw "scheduledFor")
    let delegatedTo ← toSanitizedStringN (getField raw "delegatedTo") 120 san
    let delegatedFor ← toIsoDateN dp (getField raw "delegatedFor")
    let objective ← toSanitizedStringN (getField raw "objective") 1000 san
    let sourceProjectId ← toSanitizedStringN (getField raw "sourceProjectId") 64 san
    let sourceSubtaskId ← toSanitizedStringN (getField raw "sourceSubtaskId") 64 san
    pure { id := id, input := input, title := title, kind := kind, list := list,
           context := context, nextAction := nextAction, notes := notes,
           status := status, createdAt := createdAt, updatedAt := updatedAt,
           urgency := urgency, importance := importance, estimateMin := estimateMin,
           priorityScore := priorityScore, durationWarning := durationWarning,
           actionableScore := actionableScore, actionableOk := actionableOk,
           actionableFeedback := actionableFeedback, completedAt := completedAt,
           completionComment := completionComment, scheduledFor := scheduledFor,
           delegatedTo := delegatedTo, delegatedFor := delegatedFor,
           objective := objective, subtasks := subtasks,
           sourceProjectId := sourceProjectId, sourceSubtaskId := sourceSubtaskId,
           tags := tags }
  | _ => throw "item must be an object"

/-- The structured error `validateAndNormalizeImportPayload` throws. -/
structure ImportValidationError where
  message : String
  details : List String
deriving DecidableEq, Repr

def MAX_IMPORT_ITEMS : Nat := 10000

def MAX_IMPORT_ERROR_DETAILS : Nat := 10

/-- The `forEach` of `validateAndNormalizeImportPayload`: accumulates
error messages (capped), seen ids, and normalized items. -/
def importLoop (now : String) (dp : String → Option String) (san : String → String) :
    List Json → Nat → List String → List String → List Item →
      List String × List String × List Item
  | [], _, errs, seen, acc => (errs, seen, acc)
  | raw :: rest, idx, errs, seen, acc =>
    if errs.length ≥ MAX_IMPORT_ERROR_DETAILS then
      importLoop now dp san rest (idx + 1) errs seen acc
    else
      match normalizeImportedItem now dp san raw with
      | Except.error msg =>
        importLoop now dp san rest (idx + 1) (errs ++ [s!"items[{idx}]: " ++ msg]) seen acc
      | Except.ok item =>
        if seen.contains item.id then
          importLoop now dp san rest (idx + 1)
            (errs ++ [s!"items[{idx}]: duplicate id inside import payload"]) seen acc
        else
          importLoop now dp san rest (idx + 1) errs (seen ++ [item.id]) (acc ++ [item])

/-- `validateAndNormalizeImportPayload(importData, sanitizeInput)`. -/
def validateAndNormalizeImportPayload (now : String) (dp : String → Option String)
    (san : String → String) (importData : Json) :
    Except ImportValidationError (List Item) :=
  if !(jsTruthy importData) then
    Except.error ⟨"Invalid import data format", []⟩
  else
    match getField importData "items" with
    | some (Json.jarr items) =>
      if items.length > MAX_IMPORT_ITEMS then
        Except.error ⟨s!"Import exceeds " ++ toString MAX_IMPORT_ITEMS ++ " items", []⟩
      else
        let res := importLoop now dp san items 0 [] [] []
        if res.1 ≠ [] then Except.error ⟨"Invalid import data", res.1⟩
        else Except.ok res.2.2
    | _ => Except.error ⟨"Invalid import data format", []⟩

/-- The merge the `/import` route performs on success: keep every
existing item and append exactly the normalized items whose id is not
already present (`server.js` POST `/import`). -/
def importMergeItems (dbItems newItems : List Item) : List Item :=
  let existingIds := dbItems.map (·.id)
  dbItems ++ newItems.filter (fun i => !(existingIds.contains i.id))

/-- The `/import` route's validate-then-merge composition: on validation
failure nothing is merged. -/
def importEndpoint (now : String) (dp : String → Option String) (san : String → String)
    (payload : Json) (dbItems : List Item) : Except ImportValidationError (List Item) :=
  (validateAndNormalizeImportPayload now dp san payload).map
    (fun normalized => importMergeItems dbItems normalized)

theorem importLoop_nil (now : String) (dp : String → Option String) (san : String → String)
    (idx : Nat) (errs seen : List String) (acc : List Item) :
    importLoop now dp san [] idx errs seen acc = (errs, seen, acc) := rfl

theorem importLoop_cons_cap (now : String) (dp : String → Option String)
    (san : String → String) (raw : Json) (rest : List Json) (idx : Nat)
    (errs seen : List String) (acc : List Item)
    (hcap : errs.length ≥ MAX_IMPORT_ERROR_DETAILS) :
    importLoop now dp san (raw :: rest) idx errs seen acc =
      importLoop now dp san rest (idx + 1) errs seen acc := by
  rw [importLoop, if_pos hcap]

theorem importLoop_cons_err (now : String) (dp : String → Option String)
    (san : String → String) (raw : Json) (rest : List Json) (idx : Nat)
    (errs seen : List String) (acc : List Item) (msg : String)
    (hcap : ¬ errs.length ≥ MAX_IMPORT_ERROR_DETAILS)
    (hn : normalizeImportedItem now dp san raw = Except.error msg) :
    importLoop now dp san (raw :: rest) idx errs seen acc =
      importLoop now dp san rest (idx + 1) (errs ++ [s!"items[{idx}]: " ++ msg]) seen acc := by
  rw [importLoop, if_neg hcap, hn]

theorem importLoop_cons_dup (now : String) (dp : String → Option String)
    (san : String → String) (raw : Json) (rest : List Json) (idx : Nat)
    (errs seen : List String) (acc : List Item) (item : Item)
    (hcap : ¬ errs.length ≥ MAX_IMPORT_ERROR_DETAILS)
    (hn : normalizeImportedItem now dp san raw = Except.ok item)
    (hs : seen.contains item.id = true) :
    importLoop now dp san (raw :: rest) idx errs seen acc =
      importLoop now dp san rest (idx + 1)
        (errs ++ [s!"items[{idx}]: duplicate id inside import payload"]) seen acc := by
  rw [importLoop, if_neg hcap, hn]
  dsimp only
  rw [if_pos hs]

theorem importLoop_cons_fresh (now : String) (dp : String → Option String)
    (san : String → String) (raw : Json) (rest : List Json) (idx : Nat)
    (errs seen : List String) (acc : List Item) (item : Item)
    (hcap : ¬ errs.length ≥ MAX_IMPORT_ERROR_DETAILS)
    (hn : normalizeImportedItem now dp san raw = Except.ok item)
    (hs : seen.contains item.id = false) :
    importLoop now dp san (raw :: rest) idx errs seen acc =
      importLoop now dp san rest (idx + 1) errs (seen ++ [item.id]) (acc ++ [item]) := by
  rw [importLoop, if_neg hcap, hn]
  dsimp only
  rw [hs]
  rfl

theorem importLoop_errs_extend (now : String) (dp : String → Option String)
    (san : String → String) :
    ∀ (l : List Json) (idx : Nat) (errs seen : List String) (acc : List Item),
    ∃ t, (importLoop now dp san l idx errs seen acc).1 = errs ++ t := by
  intro l
  induction l with
  | nil =>
    intro idx errs seen acc
    exact ⟨[], (List.append_nil errs).symm⟩
  | cons raw rest ih =>
    intro idx errs seen acc
    by_cases hcap : errs.length ≥ MAX_IMPORT_ERROR_DETAILS
    · rw [importLoop_cons_cap now dp san raw rest idx errs seen acc hcap]
      exact ih _ _ _ _
    · cases hn : normalizeImportedItem now dp san raw with
      | error msg =>
        rw [importLoop_cons_err now dp san raw rest idx errs seen acc msg hcap hn]
        obtain ⟨t, ht⟩ := ih (idx + 1) (errs ++ [s!"items[{idx}]: " ++ msg]) seen acc
        exact ⟨[s!"items[{idx}]: " ++ msg] ++ t, by rw [ht, List.append_assoc]⟩
      | ok item =>
        cases hs : seen.contains item.id with
        | true =>
          rw [importLoop_cons_dup now dp san raw rest idx errs seen acc item hcap hn hs]
          obtain ⟨t, ht⟩ := ih (idx + 1)
            (errs ++ [s!"items[{idx}]: duplicate id inside import payload"]) seen acc
          exact ⟨[s!"items[{idx}]: duplicate id inside import payload"] ++ t,
            by rw [ht, List.append_assoc]⟩
        | false =>
          rw [importLoop_cons_fresh now dp san raw rest idx errs seen acc item hcap hn hs]
          exact ih _ _ _ _

theorem importLoop_ne_nil_of_errs (now : String) (dp : String → Option String)
    (san : String → String) (l : List Json) (idx : Nat) (errs seen : List String)
    (acc : List Item) (h : errs ≠ []) :
    (importLoop now dp san l idx errs seen acc).1 ≠ [] := by
  obtain ⟨t, ht⟩ := importLoop_errs_extend now dp san l idx errs seen acc
  rw [ht]
  intro hc
  exact h (List.append_eq_nil.mp hc).1

theorem importLoop_seen_hit (now : String) (dp : String → Option String)
    (san : String → String) :
    ∀ (l : List Json) (idx : Nat) (errs seen : List String) (acc : List Item)
      (k : Nat) (hk : k < l.length) (it : Item),
    normalizeImportedItem now dp san (l.get ⟨k, hk⟩) = Except.ok it →
    it.id ∈ seen →
    (importLoop now dp san l idx errs seen acc).1 ≠ [] := by
  intro l
  induction l with
  | nil =>
    intro idx errs seen acc k hk
    exact absurd hk (by simp)
  | cons raw rest ih =>
    intro idx errs seen acc k hk it hn hmemseen
    by_cases hcap : errs.length ≥ MAX_IMPORT_ERROR_DETAILS
    · rw [importLoop_cons_cap now dp san raw rest idx errs seen acc hcap]
      apply importLoop_ne_nil_of_errs
      intro he
      rw [he] at hcap
      simp [MAX_IMPORT_ERROR_DETAILS] at hcap
    · cases k with
      | zero =>
        have hn0 : normalizeImportedItem now dp san raw = Except.ok it := hn
        have hct : seen.contains it.id = true := by
          cases hct : seen.contains it.id with
          | true => rfl
          | false => exact absurd hmemseen ((contains_eq_false_iff seen it.id).mp hct)
        rw [importLoop_cons_dup now dp san raw rest idx errs seen acc it hcap hn0 hct]
        apply importLoop_ne_nil_of_errs
        simp
      | succ k' =>
        have hk' : k' < rest.length := Nat.lt_of_succ_lt_succ hk
        have hn' : normalizeImportedItem now dp san (rest.get ⟨k', hk'⟩) = Except.ok it := hn
        cases hnr : normalizeImportedItem now dp san raw with
        | error msg =>
          rw [importLoop_cons_err now dp san raw rest idx errs seen acc msg hcap hnr]
          exact ih _ _ _ _ k' hk' it hn' hmemseen
        | ok item0 =>
          cases hs : seen.contains item0.id with
          | true =>
            rw [importLoop_cons_dup now dp san raw rest idx errs seen acc item0 hcap hnr hs]
            exact ih _ _ _ _ k' hk' it hn' hmemseen
          | false =>
            rw [importLoop_cons_fresh now dp san raw rest idx errs seen acc item0 hcap hnr hs]
            exact ih _ _ _ _ k' hk' it hn' (List.mem_append_left _ hmemseen)

theorem importLoop_dup_pair (now : String) (dp : String → Option String)
    (san : String → String) :
    ∀ (l : List Json) (idx : Nat) (errs seen : List String) (acc : List Item)
      (i j : Nat) (hij : i < j) (hj : j < l.length) (iti itj : Item),
    normalizeImportedItem now dp san (l.get ⟨i, Nat.lt_trans hij hj⟩) = Except.ok iti →
    normalizeImportedItem now dp san (l.get ⟨j, hj⟩) = Except.ok itj →
    iti.id = itj.id →
    (importLoop now dp san l idx errs seen acc).1 ≠ [] := by
  intro l
  induction l with
  | nil =>
    intro idx errs seen acc i j hij hj
    exact absurd hj (by simp)
  | cons raw rest ih =>
    intro idx errs seen acc i j hij hj iti itj hni hnj hid
    by_cases hcap : errs.length ≥ MAX_IMPORT_ERROR_DETAILS
    · rw [importLoop_cons_cap now dp san raw rest idx errs seen acc hcap]
      apply importLoop_ne_nil_of_errs
      intro he
      rw [he] at hcap
      simp [MAX_IMPORT_ERROR_DETAILS] at hcap
    · cases i with
      | zero =>
        cases j with
        | zero => exact absurd hij (by omega)
        | succ j' =>
          have hj' : j' < rest.length := Nat.lt_of_succ_lt_succ hj
          have hni0 : normalizeImportedItem now dp san raw = Except.ok iti := hni
          have hnj' : normalizeImportedItem now dp san (rest.get ⟨j', hj'⟩) =
              Except.ok itj := hnj
          cases hs : seen.contains iti.id with
          | true =>
            rw [importLoop_cons_dup now dp san raw rest idx errs seen acc iti hcap hni0 hs]
            apply importLoop_ne_nil_of_errs
            simp
          | false =>
            rw [importLoop_cons_fresh now dp san raw rest idx errs seen acc iti hcap hni0 hs]
            apply importLoop_seen_hit now dp san rest _ _ _ _ j' hj' itj hnj'
            rw [← hid]
            exact List.mem_append_right _ (List.mem_singleton.mpr rfl)
      | succ i' =>
        cases j with
        | zero => exact absurd hij (by omega)
        | succ j' =>
          have hij' : i' < j' := Nat.lt_of_succ_lt_succ hij
          have hj' : j' < rest.length := Nat.lt_of_succ_lt_succ hj
          have hni' : normalizeImportedItem now dp san
              (rest.get ⟨i', Nat.lt_trans hij' hj'⟩) = Except.ok iti := hni
          have hnj' : normalizeImportedItem now dp san (rest.get ⟨j', hj'⟩) =
              Except.ok itj := hnj
          cases hnr : normalizeImportedItem now dp san raw with
          | error msg =>
            rw [importLoop_cons_err now dp san raw rest idx errs seen acc msg hcap hnr]
            exact ih _ _ _ _ i' j' hij' hj' iti itj hni' hnj' hid
          | ok item0 =>
            cases hs : seen.contains item0.id with
            | true =>
              rw [importLoop_cons_dup now dp san raw rest idx errs seen acc item0 hcap hnr hs]
              exact ih _ _ _ _ i' j' hij' hj' iti itj hni' hnj' hid
            | false =>
              rw [importLoop_cons_fresh now dp san raw rest idx errs seen acc item0
                hcap hnr hs]
              exact ih _ _ _ _ i' j' hij' hj' iti itj hni' hnj' hid

theorem importLoop_first_dup (now : String) (dp : String → Option String)
    (san : String → String) :
    ∀ (l : List Json) (idx : Nat) (seen : List String) (acc : List Item)
      (j : Nat) (hj : j < l.length) (itj : Item),
    (∀ k (hk : k < l.length), k ≤ j →
      ∃ it, normalizeImportedItem now dp san (l.get ⟨k, hk⟩) = Except.ok it) →
    (∀ k (hk : k < l.length), k < j →
      ∀ it, normalizeImportedItem now dp san (l.get ⟨k, hk⟩) = Except.ok it →
      it.id ∉ seen ∧ ∀ k' (hk' : k' < l.length), k' < k →
        ∀ it', normalizeImportedItem now dp san (l.get ⟨k', hk'⟩) = Except.ok it' →
          it'.id ≠ it.id) →
    normalizeImportedItem now dp san (l.get ⟨j, hj⟩) = Except.ok itj →
    (itj.id ∈ seen ∨ ∃ k, ∃ hk : k < l.length, k < j ∧ ∃ it,
      normalizeImportedItem now dp san (l.get ⟨k, hk⟩) = Except.ok it ∧ it.id = itj.id) →
    (s!"items[{idx + j}]: duplicate id inside import payload") ∈
      (importLoop now dp san l idx [] seen acc).1 := by
  intro l
  induction l with
  | nil =>
    intro idx seen acc j hj
    exact absurd hj (by simp)
  | cons raw rest ih =>
    intro idx seen acc j hj itj hok hfresh hnj hdup
    have hcap : ¬ ([] : List String).length ≥ MAX_IMPORT_ERROR_DETAILS := by
      simp [MAX_IMPORT_ERROR_DETAILS]
    cases j with
    | zero =>
      have hnj0 : normalizeImportedItem now dp san raw = Except.ok itj := hnj
      have hin : itj.id ∈ seen := by
        rcases hdup with h | ⟨k, hk, hklt, _⟩
        · exact h
        · exact absurd hklt (by omega)
      have hct : seen.contains itj.id = true := by
        cases hct : seen.contains itj.id with
        | true => rfl
        | false => exact absurd hin ((contains_eq_false_iff seen itj.id).mp hct)
      rw [importLoop_cons_dup now dp san raw rest idx [] seen acc itj hcap hnj0 hct]
      obtain ⟨t, ht⟩ := importLoop_errs_extend now dp san rest (idx + 1)
        ([] ++ [s!"items[{idx}]: duplicate id inside import payload"]) seen acc
      rw [ht, List.nil_append, Nat.add_zero]
      exact List.mem_append_left _ (List.mem_singleton.mpr rfl)
    | succ j' =>
      have hj' : j' < rest.length := Nat.lt_of_succ_lt_succ hj
      obtain ⟨it0, hn0⟩ := hok 0 (by simp) (by omega)
      have hn0' : normalizeImportedItem now dp san raw = Except.ok it0 := hn0
      have hfresh0 := hfresh 0 (by simp) (by omega) it0 hn0'
      have hct : seen.contains it0.id = false := by
        cases hct : seen.contains it0.id with
        | true =>
          exfalso
          apply hfresh0.1
          have := (contains_eq_false_iff seen it0.id)
          by_contra hnot
          exact absurd hct (by rw [(contains_eq_false_iff seen it0.id).mpr hnot]; simp)
        | false => rfl
      rw [importLoop_cons_fresh now dp san raw rest idx [] seen acc it0 hcap hn0' hct]
      have hgoal := ih (idx + 1) (seen ++ [it0.id]) (acc ++ [it0]) j' hj' itj
        (fun k hk hkj => hok (k + 1) (Nat.succ_lt_succ hk) (Nat.succ_le_succ hkj))
        (fun k hk hkj it hnit => by
          have hsh := hfresh (k + 1) (Nat.succ_lt_succ hk) (Nat.succ_lt_succ hkj) it hnit
          constructor
          · intro hmem
            rcases List.mem_append.mp hmem with hmem | hmem
            · exact hsh.1 hmem
            · exact hsh.2 0 (by simp) (by omega) it0 hn0'
                (List.mem_singleton.mp hmem).symm
          · intro k' hk' hk'k it' hnit'
            exact hsh.2 (k' + 1) (Nat.succ_lt_succ hk') (Nat.succ_lt_succ hk'k) it' hnit')
        hnj
        (by
          rcases hdup with h | ⟨k, hk, hklt, it, hnit, hidit⟩
          · exact Or.inl (List.mem_append_left _ h)
          · cases k with
            | zero =>
              have : it = it0 := by
                have := hn0'.symm.trans hnit
                exact (Except.ok.inj this).symm
              subst this
              exact Or.inl (List.mem_append_right _
                (List.mem_singleton.mpr hidit.symm))
            | succ k'' =>
              exact Or.inr ⟨k'', Nat.lt_of_succ_lt_succ hk,
                Nat.lt_of_succ_lt_succ hklt, it, hnit, hidit⟩)
      have harith : idx + (j' + 1) = (idx + 1) + j' := by omega
      rw [harith]
      exact hgoal

/-- C5: a payload in which two items share the same id is rejected as a
whole (the validator returns an error, so nothing — including the first
occurrence — is imported); when every item up to the duplicate validates
and the duplicate is the first repeated id, the structured error's
details cite `items[j]: duplicate id inside import payload` with the
offending item's index `j`. -/
theorem import_rejects_duplicate_ids (now : String) (dp : String → Option String)
    (san : String → String) (payload : Json) (l : List Json)
    (htr : jsTruthy payload = true)
    (hget : getField payload "items" = some (Json.jarr l))
    (hlen : l.length ≤ MAX_IMPORT_ITEMS) :
    (∀ (i j : Nat) (hij : i < j) (hj : j < l.length) (iti itj : Item),
      normalizeImportedItem now dp san (l.get ⟨i, Nat.lt_trans hij hj⟩) = Except.ok iti →
      normalizeImportedItem now dp san (l.get ⟨j, hj⟩) = Except.ok itj →
      iti.id = itj.id →
      ∃ e, validateAndNormalizeImportPayload now dp san payload = Except.error e) ∧
    (∀ (j : Nat) (hj : j < l.length) (itj : Item),
      (∀ k (hk : k < l.length), k ≤ j →
        ∃ it, normalizeImportedItem now dp san (l.get ⟨k, hk⟩) = Except.ok it) →
      (∀ k (hk : k < l.length), k < j →
        ∀ it, normalizeImportedItem now dp san (l.get ⟨k, hk⟩) = Except.ok it →
        ∀ k' (hk' : k' < l.length), k' < k →
          ∀ it', normalizeImportedItem now dp san (l.get ⟨k', hk'⟩) = Except.ok it' →
            it'.id ≠ it.id) →
      normalizeImportedItem now dp san (l.get ⟨j, hj⟩) = Except.ok itj →
      (∃ k, ∃ hk : k < l.length, k < j ∧ ∃ it,
        normalizeImportedItem now dp san (l.get ⟨k, hk⟩) = Except.ok it ∧
          it.id = itj.id) →
      ∃ e, validateAndNormalizeImportPayload now dp san payload = Except.error e ∧
        e.message = "Invalid import data" ∧
        (s!"items[{j}]: duplicate id inside import payload") ∈ e.details) := by
  have hv : validateAndNormalizeImportPayload now dp san payload =
      (if (importLoop now dp san l 0 [] [] []).1 ≠ [] then
        Except.error ⟨"Invalid import data", (importLoop now dp san l 0 [] [] []).1⟩
      else Except.ok (importLoop now dp san l 0 [] [] []).2.2) := by
    rw [validateAndNormalizeImportPayload, htr, hget]
    have hngt : ¬ (l.length > MAX_IMPORT_ITEMS) := by omega
    dsimp only
    rw [if_neg (by simp), if_neg hngt]
  constructor
  · intro i j hij hj iti itj hni hnj hid
    have hne := importLoop_dup_pair now dp san l 0 [] [] [] i j hij hj iti itj hni hnj hid
    rw [hv, if_pos hne]
    exact ⟨_, rfl⟩
  · intro j hj itj hok hdistinct hnj hdup
    have hmem := importLoop_first_dup now dp san l 0 [] [] j hj itj hok
      (fun k hk hkj it hnit =>
        ⟨List.not_mem_nil _, fun k' hk' hk'k it' hnit' =>
          hdistinct k hk hkj it hnit k' hk' hk'k it' hnit'⟩)
      hnj
      (Or.inr hdup)
    rw [Nat.zero_add] at hmem
    have hne : (importLoop now dp san l 0 [] [] []).1 ≠ [] := by
      intro h
      rw [h] at hmem
      exact List.not_mem_nil _ hmem
    refine ⟨⟨"Invalid import data", (importLoop now dp san l 0 [] [] []).1⟩, ?_, rfl, hmem⟩
    rw [hv, if_pos hne]

/-- First raw item of the duplicate-id example payload. -/
def dupPayloadItem0 : Json :=
  Json.jobj [("id", Json.jstr "abc123"), ("input", Json.jstr "hola"),
    ("list", Json.jstr "collect"), ("status", Json.jstr "unprocessed")]

/-- Second raw item of the duplicate-id example payload — same id. -/
def dupPayloadItem1 : Json :=
  Json.jobj [("id", Json.jstr "abc123"), ("input", Json.jstr "otra"),
    ("list", Json.jstr "collect"), ("status", Json.jstr "unprocessed")]

/-- The duplicate-id example payload. -/
def dupPayload : Json :=
  Json.jobj [("items", Json.jarr [dupPayloadItem0, dupPayloadItem1])]

/-- The normalized form of an example minimal raw item, parameterized by
its input text and the evaluation time filling the absent timestamps. -/
def minimalNorm (inputText t : String) : Item :=
  { id := "abc123", input := inputText, title := inputText, kind := none,
    list := "collect", context := none, nextAction := none, notes := none,
    status := "unprocessed", createdAt := t, updatedAt := t,
    urgency := none, importance := none, estimateMin := none,
    priorityScore := none, durationWarning := none, actionableScore := none,
    actionableOk := none, actionableFeedback := none, completedAt := none,
    completionComment := none, scheduledFor := none, delegatedTo := none,
    delegatedFor := none, objective := none, subtasks := [],
    sourceProjectId := none, sourceSubtaskId := none, tags := [] }

/-- Concrete instance of C5: the two-item payload sharing id `abc123` is
rejected with `Invalid import data`, citing the duplicate at index 1. -/
theorem import_rejects_duplicate_ids_witness :
    ∃ e, validateAndNormalizeImportPayload "NOW" (fun s => some s) (fun s => s)
        dupPayload = Except.error e ∧
      e.message = "Invalid import data" ∧
      ("items[1]: duplicate id inside import payload") ∈ e.details := by
  have h := (import_rejects_duplicate_ids "NOW" (fun s => some s) (fun s => s)
    dupPayload [dupPayloadItem0, dupPayloadItem1] rfl rfl (by decide)).2
  have h2 := h 1 (by decide) (minimalNorm "otra" "NOW")
    (fun k hk hkj => by
      have hk2 : k < 2 := hk
      interval_cases k
      · exact ⟨minimalNorm "hola" "NOW", rfl⟩
      · exact ⟨minimalNorm "otra" "NOW", rfl⟩)
    (fun k hk hkj it hnit k' hk' hk'k it' hnit' => by
      have hkj1 : k < 1 := hkj
      exact absurd hk'k (by omega))
    rfl
    ⟨0, by decide, by decide, minimalNorm "hola" "NOW", rfl, rfl⟩
  exact h2

/-- C6: the `/import` merge adds exactly the normalized items whose ids
are not already present, leaves every existing item unchanged (for any
id already present, the merged list's rows with that id are exactly the
old ones), and is what the endpoint performs on successful validation. -/
theorem import_merge_preserves_existing (dbItems normalized : List Item) :
    (∀ x ∈ dbItems, x ∈ importMergeItems dbItems normalized) ∧
    (∀ y ∈ importMergeItems dbItems normalized,
      y ∈ dbItems ∨ (y ∈ normalized ∧ y.id ∉ dbItems.map (fun x => x.id))) ∧
    (∀ y ∈ normalized, y.id ∉ dbItems.map (fun x => x.id) →
      y ∈ importMergeItems dbItems normalized) ∧
    (∀ iid, iid ∈ dbItems.map (fun x => x.id) →
      (importMergeItems dbItems normalized).filter (fun x => x.id == iid) =
        dbItems.filter (fun x => x.id == iid)) ∧
    (∀ (now : String) (dp : String → Option String) (san : String → String)
      (payload : Json),
      validateAndNormalizeImportPayload now dp san payload = Except.ok normalized →
      importEndpoint now dp san payload dbItems =
        Except.ok (importMergeItems dbItems normalized)) := by
  refine ⟨?_, ?_, ?_, ?_, ?_⟩
  · intro x hx
    exact List.mem_append_left _ hx
  · intro y hy
    rcases List.mem_append.mp hy with hy | hy
    · exact Or.inl hy
    · rw [List.mem_filter] at hy
      refine Or.inr ⟨hy.1, ?_⟩
      have hb := hy.2
      rw [Bool.not_eq_true'] at hb
      exact (contains_eq_false_iff _ _).mp hb
  · intro y hy hnot
    apply List.mem_append_right
    rw [List.mem_filter]
    refine ⟨hy, ?_⟩
    rw [Bool.not_eq_true']
    exact (contains_eq_false_iff _ _).mpr hnot
  · intro iid hiid
    rw [importMergeItems]
    rw [List.filter_append]
    have hnil : (normalized.filter
        (fun i => !((dbItems.map (fun x => x.id)).contains i.id))).filter
          (fun x => x.id == iid) = [] := by
      rw [List.filter_eq_nil_iff]
      intro a ha hbeq
      rw [List.mem_filter, Bool.not_eq_true'] at ha
      have hnotmem := (contains_eq_false_iff _ _).mp ha.2
      rw [beq_iff_eq] at hbeq
      rw [hbeq] at hnotmem
      exact hnotmem hiid
    rw [hnil, List.append_nil]
  · intro now dp san payload hval
    rw [importEndpoint, hval]
    rfl

/-- An item already in the store, sharing its id with a payload item. -/
def preexistingItem : Item := minimalNorm "viejo" "OLD"

/-- Concrete instance of C6: importing a payload holding one item whose
id collides with the stored item and one item with a fresh id adds only
the fresh one; the stored item survives unchanged. -/
theorem import_merge_preserves_existing_witness :
    importEndpoint "NOW" (fun s => some s) (fun s => s)
        (Json.jobj [("items", Json.jarr [dupPayloadItem0,
          Json.jobj [("id", Json.jstr "new456"), ("input", Json.jstr "nueva"),
            ("list", Json.jstr "collect"), ("status", Json.jstr "unprocessed")]])])
        [preexistingItem] =
      Except.ok (importMergeItems [preexistingItem]
        [minimalNorm "hola" "NOW",
          { minimalNorm "nueva" "NOW" with id := "new456" }]) ∧
    importMergeItems [preexistingItem]
        [minimalNorm "hola" "NOW", { minimalNorm "nueva" "NOW" with id := "new456" }] =
      [preexistingItem, { minimalNorm "nueva" "NOW" with id := "new456" }] := by
  constructor
  · exact (import_merge_preserves_existing [preexistingItem]
      [minimalNorm "hola" "NOW",
        { minimalNorm "nueva" "NOW" with id := "new456" }]).2.2.2.2
      "NOW" (fun s => some s) (fun s => s) _ rfl
  · decide

theorem toIsoDateReq_of_ne (now : String) (dp : String → Option String) {s : String}
    (hs : ¬ s = "") :
    toIsoDateReq now dp (some (Json.jstr s)) = toIsoDateApply dp s := by
  simp only [toIsoDateReq]
  rw [if_neg hs]

/-- The clock parameter only reaches the required created/updated
timestamp coercions: items supplying both are normalized identically at
any two evaluation times. -/
theorem normalize_now_congr (now1 now2 : String) (dp : String → Option String)
    (san : String → String) (raw : Json)
    (hc : ∃ s, getField raw "createdAt" = some (Json.jstr s) ∧ s ≠ "")
    (hu : ∃ s, getField raw "updatedAt" = some (Json.jstr s) ∧ s ≠ "") :
    normalizeImportedItem now1 dp san raw = normalizeImportedItem now2 dp san raw := by
  obtain ⟨sc, hcEq, hcNe⟩ := hc
  obtain ⟨su, huEq, huNe⟩ := hu
  cases raw with
  | jobj fs =>
    simp only [normalizeImportedItem, hcEq, huEq,
      toIsoDateReq_of_ne now1 dp hcNe, toIsoDateReq_of_ne now2 dp hcNe,
      toIsoDateReq_of_ne now1 dp huNe, toIsoDateReq_of_ne now2 dp huNe]
  | jnull => rfl
  | jbool b => rfl
  | jnum n => rfl
  | jstr s => rfl
  | jarr xs => rfl

theorem importLoop_now_congr (now1 now2 : String) (dp : String → Option String)
    (san : String → String) :
    ∀ (l : List Json) (idx : Nat) (errs seen : List String) (acc : List Item),
    (∀ raw ∈ l, (∃ s, getField raw "createdAt" = some (Json.jstr s) ∧ s ≠ "") ∧
      (∃ s, getField raw "updatedAt" = some (Json.jstr s) ∧ s ≠ "")) →
    importLoop now1 dp san l idx errs seen acc =
      importLoop now2 dp san l idx errs seen acc := by
  intro l
  induction l with
  | nil => intro idx errs seen acc hts; rfl
  | cons raw rest ih =>
    intro idx errs seen acc hts
    have hhead := hts raw (List.mem_cons_self raw rest)
    have htail : ∀ raw' ∈ rest, _ ∧ _ := fun raw' hr => hts raw' (List.mem_cons_of_mem _ hr)
    have hn := normalize_now_congr now1 now2 dp san raw hhead.1 hhead.2
    by_cases hcap : errs.length ≥ MAX_IMPORT_ERROR_DETAILS
    · rw [importLoop_cons_cap now1 dp san raw rest idx errs seen acc hcap,
        importLoop_cons_cap now2 dp san raw rest idx errs seen acc hcap]
      exact ih _ _ _ _ htail
    · cases hn2 : normalizeImportedItem now2 dp san raw with
      | error msg =>
        rw [importLoop_cons_err now1 dp san raw rest idx errs seen acc msg hcap
            (hn.trans hn2),
          importLoop_cons_err now2 dp san raw rest idx errs seen acc msg hcap hn2]
        exact ih _ _ _ _ htail
      | ok item =>
        cases hs : seen.contains item.id with
        | true =>
          rw [importLoop_cons_dup now1 dp san raw rest idx errs seen acc item hcap
              (hn.trans hn2) hs,
            importLoop_cons_dup now2 dp san raw rest idx errs seen acc item hcap hn2 hs]
          exact ih _ _ _ _ htail
        | false =>
          rw [importLoop_cons_fresh now1 dp san raw rest idx errs seen acc item hcap
              (hn.trans hn2) hs,
            importLoop_cons_fresh now2 dp san raw rest idx errs seen acc item hcap hn2 hs]
          exact ih _ _ _ _ htail

/-- C7 (amended): the normalizer is deterministic given the evaluation
time; for payloads whose items all carry non-empty `createdAt` and
`updatedAt` strings the result is moreover independent of the evaluation
time. -/
theorem import_deterministic_with_timestamps (dp : String → Option String)
    (san : String → String) (payload : Json) (l : List Json) (now1 now2 : String)
    (hget : getField payload "items" = some (Json.jarr l))
    (hts : ∀ raw ∈ l, (∃ s, getField raw "createdAt" = some (Json.jstr s) ∧ s ≠ "") ∧
      (∃ s, getField raw "updatedAt" = some (Json.jstr s) ∧ s ≠ "")) :
    validateAndNormalizeImportPayload now1 dp san payload =
      validateAndNormalizeImportPayload now2 dp san payload := by
  rw [validateAndNormalizeImportPayload, validateAndNormalizeImportPayload]
  by_cases htr : (!(jsTruthy payload)) = true
  · rw [if_pos htr, if_pos htr]
  · rw [if_neg htr, if_neg htr, hget]
    dsimp only
    by_cases hlen : l.length > MAX_IMPORT_ITEMS
    · rw [if_pos hlen, if_pos hlen]
    · rw [if_neg hlen, if_neg hlen,
        importLoop_now_congr now1 now2 dp san l 0 [] [] [] hts]

/-- A raw payload item carrying its own timestamps. -/
def timestampedPayloadItem : Json :=
  Json.jobj [("id", Json.jstr "abc123"), ("input", Json.jstr "hola"),
    ("list", Json.jstr "collect"), ("status", Json.jstr "unprocessed"),
    ("createdAt", Json.jstr "2026-01-01"), ("updatedAt", Json.jstr "2026-01-01")]

/-- Concrete instance of the amended C7: with timestamps supplied, two
evaluation times give identical results. -/
theorem import_deterministic_with_timestamps_witness :
    validateAndNormalizeImportPayload "TIME-A" (fun s => some s) (fun s => s)
        (Json.jobj [("items", Json.jarr [timestampedPayloadItem])]) =
      validateAndNormalizeImportPayload "TIME-B" (fun s => some s) (fun s => s)
        (Json.jobj [("items", Json.jarr [timestampedPayloadItem])]) := by
  apply import_deterministic_with_timestamps (fun s => some s) (fun s => s)
    (Json.jobj [("items", Json.jarr [timestampedPayloadItem])])
    [timestampedPayloadItem] "TIME-A" "TIME-B" rfl
  intro raw hr
  have hr' : raw = timestampedPayloadItem := List.mem_singleton.mp hr
  subst hr'
  exact ⟨⟨"2026-01-01", rfl, by decide⟩, ⟨"2026-01-01", rfl, by decide⟩⟩

/-- The payload of the C7 counterexample: a valid item with no
timestamps, so the normalizer fills them with the current time. -/
def untimestampedPayload : Json :=
  Json.jobj [("items", Json.jarr [dupPayloadItem0])]

/-- C7 counterexample: the claim's unconditional determinism is false —
the same payload evaluated at two different times yields different
results, because absent `createdAt`/`updatedAt` default to the current
time. -/
theorem import_normalizer_time_dependent :
    validateAndNormalizeImportPayload "2026-01-01T00:00:00.000Z" (fun s => some s)
        (fun s => s) untimestampedPayload ≠
      validateAndNormalizeImportPayload "2026-01-02T00:00:00.000Z" (fun s => some s)
        (fun s => s) untimestampedPayload := by
  intro h
  have h1 : validateAndNormalizeImportPayload "2026-01-01T00:00:00.000Z"
      (fun s => some s) (fun s => s) untimestampedPayload =
      Except.ok [minimalNorm "hola" "2026-01-01T00:00:00.000Z"] := rfl
  have h2 : validateAndNormalizeImportPayload "2026-01-02T00:00:00.000Z"
      (fun s => some s) (fun s => s) untimestampedPayload =
      Except.ok [minimalNorm "hola" "2026-01-02T00:00:00.000Z"] := rfl
  rw [h1, h2] at h
  injection h with h'
  injection h' with h'' _
  have hts := congrArg Item.createdAt h''
  exact absurd hts (by decide)

/-! ### Local `loadDb` shape recovery (claim C10)

The local branch of `loadDb` in `lib/store.js` (present in the snapshot):
`readFile` + `JSON.parse` inside try/catch, returning
`{ version: 1, items: [], ...data }`; a missing or unparseable file falls
into the catch and yields the empty store.  The object spread is
modelled by appending the parsed value's own enumerable properties after
the defaults, with last-assignment-wins lookup. -/

/-- Outcome of `readFile` + `JSON.parse` on the database file. -/
inductive LocalFileRead where
  | missing
  | unparseable
  | parsed (v : Json)
deriving Repr

/-- The own enumerable properties a value contributes when spread into an
object literal: an object's fields, an array's or string's indexed
elements, nothing for primitives. -/
def ownProps : Json → List (String × Json)
  | Json.jobj fs => fs
  | Json.jarr xs => ((List.range xs.length).zip xs).map (fun p => (toString p.1, p.2))
  | Json.jstr s =>
    ((List.range s.data.length).zip s.data).map
      (fun p => (toString p.1, Json.jstr (String.mk [p.2])))
  | _ => []

/-- The local `loadDb` result object, as the property list the literal
`{ version: 1, items: [], ...data }` builds (later assignments win on
lookup). -/
def loadDbLocal : LocalFileRead → List (String × Json)
  | LocalFileRead.missing => [("version", Json.jnum 1), ("items", Json.jarr [])]
  | LocalFileRead.unparseable => [("version", Json.jnum 1), ("items", Json.jarr [])]
  | LocalFileRead.parsed v =>
    [("version", Json.jnum 1), ("items", Json.jarr [])] ++ ownProps v

/-- The `items` field of the local `loadDb` result. -/
def loadDbLocalItems (fr : LocalFileRead) : Option Json :=
  objGetLast (loadDbLocal fr) "items"

theorem find?_append_of_some {α : Type} (p : α → Bool) (l1 l2 : List α) (a : α)
    (h : l1.find? p = some a) : (l1 ++ l2).find? p = some a := by
  induction l1 with
  | nil => exact absurd h (by simp)
  | cons x xs ih =>
    rw [List.cons_append, List.find?_cons]
    rw [List.find?_cons] at h
    cases hp : p x with
    | true =>
      rw [hp] at h
      rw [h]
    | false =>
      rw [hp] at h
      exact ih h

theorem find?_append_of_none {α : Type} (p : α → Bool) (l1 l2 : List α)
    (h : l1.find? p = none) : (l1 ++ l2).find? p = l2.find? p := by
  induction l1 with
  | nil => rfl
  | cons x xs ih =>
    rw [List.find?_cons] at h
    cases hp : p x with
    | true => rw [hp] at h; exact absurd h (by simp)
    | false =>
      rw [List.cons_append, List.find?_cons, hp]
      rw [hp] at h
      exact ih h

/-- C10 counterexample: a parseable document whose `items` field is the
number 0 is returned with `items = 0` — not a list — because the spread
`{ version: 1, items: [], ...data }` lets the document override the
default. -/
theorem load_db_local_items_not_always_list :
    loadDbLocalItems (LocalFileRead.parsed (Json.jobj [("items", Json.jnum 0)])) =
      some (Json.jnum 0) ∧
    ∀ l : List Json, Json.jnum 0 ≠ Json.jarr l := by
  exact ⟨rfl, fun l h => Json.noConfusion h⟩

/-- C10 (amended): the local `loadDb` yields an array `items` when the
file is missing, unparseable, or the parsed document contributes no own
`items` property; when the parsed object does supply `items`, that value
— of whatever shape — is returned verbatim. -/
theorem load_db_local_items_amended :
    loadDbLocalItems LocalFileRead.missing = some (Json.jarr []) ∧
    loadDbLocalItems LocalFileRead.unparseable = some (Json.jarr []) ∧
    (∀ v, "items" ∉ (ownProps v).map Prod.fst →
      loadDbLocalItems (LocalFileRead.parsed v) = some (Json.jarr [])) ∧
    (∀ fs x, objGetLast fs "items" = some x →
      loadDbLocalItems (LocalFileRead.parsed (Json.jobj fs)) = some x) := by
  refine ⟨rfl, rfl, ?_, ?_⟩
  · intro v hno
    rw [loadDbLocalItems, loadDbLocal, objGetLast, List.reverse_append]
    have hnone : (ownProps v).reverse.find? (fun p => p.1 == "items") = none := by
      rw [List.find?_eq_none]
      intro p hp hbeq
      rw [beq_iff_eq] at hbeq
      apply hno
      rw [List.mem_map]
      exact ⟨p, List.mem_reverse.mp hp, hbeq⟩
    rw [find?_append_of_none _ _ _ hnone]
    rfl
  · intro fs x hx
    rw [objGetLast] at hx
    rw [Option.map_eq_some'] at hx
    obtain ⟨pr, hfind, hsnd⟩ := hx
    rw [loadDbLocalItems, loadDbLocal, objGetLast, List.reverse_append]
    dsimp only [ownProps]
    rw [find?_append_of_some _ _ _ pr hfind]
    rw [Option.map_some', hsnd]

/-- Concrete instance of the amended C10: a document without an own
`items` property yields the empty array, and a document with a
string-valued `items` propagates it verbatim. -/
theorem load_db_local_items_amended_witness :
    loadDbLocalItems (LocalFileRead.parsed (Json.jobj [("version", Json.jnum 3)])) =
      some (Json.jarr []) ∧
    loadDbLocalItems (LocalFileRead.parsed (Json.jobj [("items", Json.jstr "boom")])) =
      some (Json.jstr "boom") := by
  constructor
  · exact (load_db_local_items_amended).2.2.1 (Json.jobj [("version", Json.jnum 3)])
      (by decide)
  · exact (load_db_local_items_amended).2.2.2 [("items", Json.jstr "boom")]
      (Json.jstr "boom") rfl

/-- Concrete instance of C9: urgency 5 and importance 4 in the patch give
`priorityScore = 20`. -/
theorem hacer_priority_score_witness :
    (withHacerMeta ⟨none, none, none, none, some "Llamar al banco"⟩
      ⟨some 5, some 4, none, none⟩).priorityScore = 20 := by
  have h := (hacer_priority_score ⟨none, none, none, none, some "Llamar al banco"⟩
    ⟨some 5, some 4, none, none⟩).2 5 4 rfl rfl (by decide) (by decide) (by decide) (by decide)
  exact h.1.trans (by norm_num)

end GtdNeto
